import Mathlib

/-!
# Verification of the x402b wrapped-token ledger (PieWrappedERC20 / pieUSD)

Shallow embedding of the EIP-3009 wrapped ERC20 contract
(`PieWrappedERC20`, with the same authorization logic as the earlier
`pieUSD` contract): deposit/redeem against an underlying token,
`transferWithAuthorization` / `receiveWithAuthorization` /
`cancelAuthorization` with a per-(authorizer, nonce) replay registry,
and the EIP-712 signature boundary.

Modelling conventions:
* Addresses, uint256 values and bytes32 nonces are `Nat`; EVM wrap-around
  is applied explicitly (`wrap256`) exactly where the Solidity code uses
  `unchecked` arithmetic, and checked arithmetic reverts are explicit
  errors.
* A transaction either returns a new state (`.ok`) or reverts (`.error`),
  in which case the chain state is unchanged (`execOp`): this is the EVM
  revert semantics.
* ECDSA recovery over the EIP-712 digest is abstracted as an environment
  function `Env.recover`; the digest is represented by the injective
  typed-data structure (`Digest`), mirroring the three distinct
  typehashes of the contract under collision resistance of keccak.
-/

/-- Account addresses (`address`), modelled as `Nat` with `0` the zero
address. -/
abbrev Addr := Nat

/-- `2^256`, the modulus of EVM words, written as a literal. -/
def TWO256 : Nat := 115792089237316195423570985008687907853269984665640564039457584007913129639936

/-- `type(uint256).max`. -/
def UINT256_MAX : Nat := TWO256 - 1

/-- EVM wrap-around for `unchecked` additions. -/
def wrap256 (x : Nat) : Nat := x % TWO256

/-- EVM wrap-around subtraction for `unchecked { x -= y }`. -/
def subWrap256 (x y : Nat) : Nat := (TWO256 + x - y % TWO256) % TWO256

/-- Revert reasons of the contract and of the library code it calls,
named after the source custom errors. -/
inductive Err where
  | AmountMustBeGreaterThanZero
  | InsufficientBalance
  | UnauthorizedReceiver
  | TransferAmountMismatch
  | AuthorizationExpired
  | AuthorizationNotYetValid
  | AuthorizationAlreadyUsed
  | InvalidAuthorization
  | ECDSAInvalidSignature
  | ECDSAInvalidSignatureLength
  | ERC20InvalidSender
  | ERC20InvalidReceiver
  | ERC20InsufficientBalance
  | ERC20InsufficientAllowance
  | ReentrancyGuardReentrantCall
  | ArithmeticOverflow
  | ArithmeticUnderflow
deriving DecidableEq, Repr

/-- The EIP-712 typed-data digest `_hashTypedDataV4(structHash)`.  The three
constructors correspond to the three distinct typehashes of the contract
(`TRANSFER_WITH_AUTHORIZATION_TYPEHASH`, `RECEIVE_WITH_AUTHORIZATION_TYPEHASH`,
`CANCEL_AUTHORIZATION_TYPEHASH`); constructor injectivity models keccak
collision resistance over the abi-encoded fields. -/
inductive Digest where
  | transferAuth (from_ to_ value validAfter validBefore nonce : Nat)
  | receiveAuth (from_ to_ value validAfter validBefore nonce : Nat)
  | cancelAuth (authorizer nonce : Nat)
deriving DecidableEq, Repr

/-- The transaction environment: `msg.sender`, `block.timestamp`, and the
abstract ECDSA recovery function over EIP-712 digests (`none` models an
unrecoverable signature, on which the library reverts). -/
structure Env where
  sender : Addr
  timestamp : Nat
  recover : Digest → Nat → Nat → Nat → Option Addr

/-- State of one ERC20 ledger (the wrapped token, or the underlying token
held by the external contract): balances, allowances, total supply. -/
structure ERC20State where
  balances : Addr → Nat
  allowances : Addr → Addr → Nat
  totalSupply : Nat

/-- Pointwise update of a balance map. -/
def setBal (b : Addr → Nat) (a : Addr) (x : Nat) : Addr → Nat :=
  fun a2 => if a2 = a then x else b a2

/-- Pointwise update of an allowance map. -/
def setAllow (al : Addr → Addr → Nat) (o sp : Addr) (x : Nat) : Addr → Addr → Nat :=
  fun o2 sp2 => if o2 = o ∧ sp2 = sp then x else al o2 sp2

/-- Pointwise update of the authorization-state map. -/
def setAuthState (f : Addr → Nat → Bool) (a n : Nat) (v : Bool) : Addr → Nat → Bool :=
  fun a2 n2 => if a2 = a ∧ n2 = n then v else f a2 n2

/-- Second half of the ERC20 `_update(from, to, value)` ledger primitive:
`to = 0` burns (unchecked supply decrease), otherwise the recipient is
credited with an unchecked (wrapping) addition. -/
def updateTo (st : ERC20State) (to_ value : Nat) : ERC20State :=
  if to_ = 0 then { st with totalSupply := subWrap256 st.totalSupply value }
  else { st with balances := setBal st.balances to_ (wrap256 (st.balances to_ + value)) }

/-- The ERC20 `_update(from, to, value)` ledger primitive: `from = 0` mints
(checked supply increase), otherwise the sender is debited with a
sufficiency check; then the `updateTo` half credits the recipient. -/
def erc20Update (st : ERC20State) (from_ to_ value : Nat) : Except Err ERC20State :=
  if from_ = 0 then
    if st.totalSupply + value > UINT256_MAX then Except.error Err.ArithmeticOverflow
    else Except.ok (updateTo { st with totalSupply := st.totalSupply + value } to_ value)
  else
    if st.balances from_ < value then Except.error Err.ERC20InsufficientBalance
    else Except.ok (updateTo
      { st with balances := setBal st.balances from_ (st.balances from_ - value) } to_ value)

/-- ERC20 `_mint`. -/
def erc20Mint (st : ERC20State) (account value : Nat) : Except Err ERC20State :=
  if account = 0 then Except.error Err.ERC20InvalidReceiver
  else erc20Update st 0 account value

/-- ERC20 `_burn`. -/
def erc20Burn (st : ERC20State) (account value : Nat) : Except Err ERC20State :=
  if account = 0 then Except.error Err.ERC20InvalidSender
  else erc20Update st account 0 value

/-- ERC20 `_transfer`. -/
def erc20Transfer (st : ERC20State) (from_ to_ value : Nat) : Except Err ERC20State :=
  if from_ = 0 then Except.error Err.ERC20InvalidSender
  else if to_ = 0 then Except.error Err.ERC20InvalidReceiver
  else erc20Update st from_ to_ value

/-- ERC20 `transferFrom(from, to, value)` called by `spender`:
`_spendAllowance` then `_transfer`. -/
def erc20TransferFrom (st : ERC20State) (spender from_ to_ value : Nat) : Except Err ERC20State :=
  if st.allowances from_ spender = UINT256_MAX then erc20Transfer st from_ to_ value
  else if st.allowances from_ spender < value then Except.error Err.ERC20InsufficientAllowance
  else erc20Transfer
    { st with allowances :=
        setAllow st.allowances from_ spender (st.allowances from_ spender - value) }
    from_ to_ value

/-- The wrapper contract's own account address (`address(this)`); any fixed
nonzero address. -/
def contractAddr : Addr := 1000003

/-- Full chain state relevant to the contract: the EIP-3009 replay
registry `_authorizationStates`, the wrapped token's ERC20 ledger, the
underlying token's ERC20 ledger, and the `ReentrancyGuard` status flag. -/
structure WrappedState where
  authorizationStates : Addr → Nat → Bool
  wrapped : ERC20State
  underlying : ERC20State
  locked : Bool

namespace PieWrappedERC20

/-- `_requireUnusedAuthorization`. -/
def requireUnusedAuthorization (st : WrappedState) (authorizer nonce : Nat) : Except Err Unit :=
  if st.authorizationStates authorizer nonce then Except.error Err.AuthorizationAlreadyUsed
  else Except.ok ()

/-- `_requireValidAuthorization`: time-window checks, then the nonce
check. -/
def requireValidAuthorization (env : Env) (st : WrappedState)
    (authorizer nonce validAfter validBefore : Nat) : Except Err Unit :=
  if env.timestamp < validAfter then Except.error Err.AuthorizationNotYetValid
  else if validBefore < env.timestamp then Except.error Err.AuthorizationExpired
  else requireUnusedAuthorization st authorizer nonce

/-- `_executeAuthorization`: mark the (authorizer, nonce) pair used
(the `to`/`value` arguments only feed the emitted event). -/
def executeAuthorization (st : WrappedState) (authorizer to_ value nonce : Nat) : WrappedState :=
  { st with authorizationStates := setAuthState st.authorizationStates authorizer nonce true }

/-- `ECDSA.recover(digest, v, r, s)`: reverts when recovery fails. -/
def ecdsaRecover (env : Env) (digest : Digest) (v r s : Nat) : Except Err Addr :=
  match env.recover digest v r s with
  | some a => Except.ok a
  | none => Except.error Err.ECDSAInvalidSignature

/-- Big-endian byte list to natural number. -/
def bytesToNatBE (bs : List Nat) : Nat := bs.foldl (fun acc b => acc * 256 + b) 0

/-- Natural number to a big-endian byte list of fixed length. -/
def natToBytesBE : Nat → Nat → List Nat
  | 0, _ => []
  | k + 1, x => natToBytesBE k (x / 256) ++ [x % 256]

/-- Modelled from the spec: the packed-signature parsing adapter of
`ECDSA.recover(bytes)` (OpenZeppelin library code, not present under
`src/`).  Per the spec, the two signature encodings "collapse to one
internal canonical signature type with two parsing adapters at the
boundary": a 65-byte packed signature is `r` (32 bytes, big-endian) ++
`s` (32 bytes) ++ `v` (1 byte); any other length is rejected. -/
def splitSignature (sig : List Nat) : Option (Nat × Nat × Nat) :=
  if sig.length = 65 then
    some (sig.getD 64 0, bytesToNatBE (sig.take 32), bytesToNatBE ((sig.drop 32).take 32))
  else none

/-- `ECDSA.recover(digest, signature)` for a packed byte signature:
parse, then recover with the canonical (v, r, s) components. -/
def ecdsaRecoverBytes (env : Env) (digest : Digest) (signature : List Nat) : Except Err Addr :=
  match splitSignature signature with
  | some (v, r, s) => ecdsaRecover env digest v r s
  | none => Except.error Err.ECDSAInvalidSignatureLength

/-- `transferWithAuthorization` (structured v/r/s overload). -/
def transferWithAuthorization (env : Env) (st : WrappedState)
    (from_ to_ value validAfter validBefore nonce v r s : Nat) : Except Err WrappedState :=
  match requireValidAuthorization env st from_ nonce validAfter validBefore with
  | Except.error e => Except.error e
  | Except.ok _ =>
    match ecdsaRecover env (Digest.transferAuth from_ to_ value validAfter validBefore nonce) v r s with
    | Except.error e => Except.error e
    | Except.ok signer =>
      if signer ≠ from_ then Except.error Err.InvalidAuthorization
      else
        let st1 := executeAuthorization st from_ to_ value nonce
        match erc20Transfer st1.wrapped from_ to_ value with
        | Except.error e => Except.error e
        | Except.ok w => Except.ok { st1 with wrapped := w }

/-- `transferWithAuthorization` (packed byte-signature overload). -/
def transferWithAuthorizationSig (env : Env) (st : WrappedState)
    (from_ to_ value validAfter validBefore nonce : Nat) (signature : List Nat) :
    Except Err WrappedState :=
  match requireValidAuthorization env st from_ nonce validAfter validBefore with
  | Except.error e => Except.error e
  | Except.ok _ =>
    match ecdsaRecoverBytes env (Digest.transferAuth from_ to_ value validAfter validBefore nonce)
        signature with
    | Except.error e => Except.error e
    | Except.ok signer =>
      if signer ≠ from_ then Except.error Err.InvalidAuthorization
      else
        let st1 := executeAuthorization st from_ to_ value nonce
        match erc20Transfer st1.wrapped from_ to_ value with
        | Except.error e => Except.error e
        | Except.ok w => Except.ok { st1 with wrapped := w }

/-- `receiveWithAuthorization` (structured v/r/s overload): the caller
must be the declared payee. -/
def receiveWithAuthorization (env : Env) (st : WrappedState)
    (from_ to_ value validAfter validBefore nonce v r s : Nat) : Except Err WrappedState :=
  if to_ ≠ env.sender then Except.error Err.UnauthorizedReceiver
  else
    match requireValidAuthorization env st from_ nonce validAfter validBefore with
    | Except.error e => Except.error e
    | Except.ok _ =>
      match ecdsaRecover env (Digest.receiveAuth from_ to_ value validAfter validBefore nonce) v r s with
      | Except.error e => Except.error e
      | Except.ok signer =>
        if signer ≠ from_ then Except.error Err.InvalidAuthorization
        else
          let st1 := executeAuthorization st from_ to_ value nonce
          match erc20Transfer st1.wrapped from_ to_ value with
          | Except.error e => Except.error e
          | Except.ok w => Except.ok { st1 with wrapped := w }

/-- `receiveWithAuthorization` (packed byte-signature overload). -/
def receiveWithAuthorizationSig (env : Env) (st : WrappedState)
    (from_ to_ value validAfter validBefore nonce : Nat) (signature : List Nat) :
    Except Err WrappedState :=
  if to_ ≠ env.sender then Except.error Err.UnauthorizedReceiver
  else
    match requireValidAuthorization env st from_ nonce validAfter validBefore with
    | Except.error e => Except.error e
    | Except.ok _ =>
      match ecdsaRecoverBytes env (Digest.receiveAuth from_ to_ value validAfter validBefore nonce)
          signature with
      | Except.error e => Except.error e
      | Except.ok signer =>
        if signer ≠ from_ then Except.error Err.InvalidAuthorization
        else
          let st1 := executeAuthorization st from_ to_ value nonce
          match erc20Transfer st1.wrapped from_ to_ value with
          | Except.error e => Except.error e
          | Except.ok w => Except.ok { st1 with wrapped := w }

/-- `cancelAuthorization`: requires the nonce unused and the cancellation
signature to recover to the authorizer; marks the nonce consumed and
touches nothing else. -/
def cancelAuthorization (env : Env) (st : WrappedState)
    (authorizer nonce v r s : Nat) : Except Err WrappedState :=
  match requireUnusedAuthorization st authorizer nonce with
  | Except.error e => Except.error e
  | Except.ok _ =>
    match ecdsaRecover env (Digest.cancelAuth authorizer nonce) v r s with
    | Except.error e => Except.error e
    | Except.ok signer =>
      if signer ≠ authorizer then Except.error Err.InvalidAuthorization
      else Except.ok { st with
             authorizationStates := setAuthState st.authorizationStates authorizer nonce true }

/-- `authorizationState(authorizer, nonce)`: the public view of the
replay registry, a single boolean. -/
def authorizationState (st : WrappedState) (authorizer nonce : Nat) : Bool :=
  st.authorizationStates authorizer nonce

/-- The `nonReentrant` modifier: revert when the guard is held, hold it
for the body, release it afterwards. -/
def nonReentrant (st : WrappedState) (body : WrappedState → Except Err WrappedState) :
    Except Err WrappedState :=
  if st.locked then Except.error Err.ReentrancyGuardReentrantCall
  else
    match body { st with locked := true } with
    | Except.error e => Except.error e
    | Except.ok st2 => Except.ok { st2 with locked := false }

/-- Body of `deposit`: pull `amount` of the underlying token from the
caller (measuring the actually received amount by a balance-before/after
comparison), then mint the wrapped token 1:1. -/
def depositBody (env : Env) (st : WrappedState) (amount : Nat) : Except Err WrappedState :=
  if amount = 0 then Except.error Err.AmountMustBeGreaterThanZero
  else
    match erc20TransferFrom st.underlying contractAddr env.sender contractAddr amount with
    | Except.error e => Except.error e
    | Except.ok u =>
      if u.balances contractAddr < st.underlying.balances contractAddr then
        Except.error Err.ArithmeticUnderflow
      else if u.balances contractAddr - st.underlying.balances contractAddr ≠ amount then
        Except.error Err.TransferAmountMismatch
      else
        match erc20Mint st.wrapped env.sender
            (u.balances contractAddr - st.underlying.balances contractAddr) with
        | Except.error e => Except.error e
        | Except.ok w => Except.ok { st with underlying := u, wrapped := w }

/-- `deposit(amount)` (nonReentrant). -/
def deposit (env : Env) (st : WrappedState) (amount : Nat) : Except Err WrappedState :=
  nonReentrant st (fun s => depositBody env s amount)

/-- The prefix of `redeem` up to (and excluding) the external release
call: the zero-amount check, the caller's wrapped-balance check, and the
burn of the wrapped tokens. -/
def redeemDebit (env : Env) (st : WrappedState) (amount : Nat) : Except Err WrappedState :=
  if amount = 0 then Except.error Err.AmountMustBeGreaterThanZero
  else if st.wrapped.balances env.sender < amount then Except.error Err.InsufficientBalance
  else
    match erc20Burn st.wrapped env.sender amount with
    | Except.error e => Except.error e
    | Except.ok w => Except.ok { st with wrapped := w }

/-- Body of `redeem`: debit (checks + burn) first, then the external
`underlying.safeTransfer(msg.sender, amount)` release call. -/
def redeemBody (env : Env) (st : WrappedState) (amount : Nat) : Except Err WrappedState :=
  match redeemDebit env st amount with
  | Except.error e => Except.error e
  | Except.ok st1 =>
    match erc20Transfer st1.underlying contractAddr env.sender amount with
    | Except.error e => Except.error e
    | Except.ok u => Except.ok { st1 with underlying := u }

/-- `redeem(amount)` (nonReentrant). -/
def redeem (env : Env) (st : WrappedState) (amount : Nat) : Except Err WrappedState :=
  nonReentrant st (fun s => redeemBody env s amount)

/-- One externally callable state-mutating entry point of the contract. -/
inductive Op where
  | depositOp (amount : Nat)
  | redeemOp (amount : Nat)
  | transferWithAuthVRS (from_ to_ value validAfter validBefore nonce v r s : Nat)
  | transferWithAuthSig (from_ to_ value validAfter validBefore nonce : Nat) (signature : List Nat)
  | receiveWithAuthVRS (from_ to_ value validAfter validBefore nonce v r s : Nat)
  | receiveWithAuthSig (from_ to_ value validAfter validBefore nonce : Nat) (signature : List Nat)
  | cancelAuthOp (authorizer nonce v r s : Nat)
deriving DecidableEq, Repr

/-- Dispatch one entry point. -/
def step (env : Env) (op : Op) (st : WrappedState) : Except Err WrappedState :=
  match op with
  | Op.depositOp amount => deposit env st amount
  | Op.redeemOp amount => redeem env st amount
  | Op.transferWithAuthVRS f t vl va vb n v r s =>
      transferWithAuthorization env st f t vl va vb n v r s
  | Op.transferWithAuthSig f t vl va vb n sig =>
      transferWithAuthorizationSig env st f t vl va vb n sig
  | Op.receiveWithAuthVRS f t vl va vb n v r s =>
      receiveWithAuthorization env st f t vl va vb n v r s
  | Op.receiveWithAuthSig f t vl va vb n sig =>
      receiveWithAuthorizationSig env st f t vl va vb n sig
  | Op.cancelAuthOp a n v r s => cancelAuthorization env st a n v r s

/-- A transaction's effect on the chain state: a revert leaves the state
unchanged (EVM revert semantics). -/
def execOp (env : Env) (op : Op) (st : WrappedState) : WrappedState :=
  match step env op st with
  | Except.ok st2 => st2
  | Except.error _ => st

/-- Effect of a sequence of transactions. -/
def runOps : List (Env × Op) → WrappedState → WrappedState
  | [], st => st
  | (env, op) :: rest, st => runOps rest (execOp env op st)

/-- Does this entry point, on success, consume the authorization
(authorizer `a`, nonce `n`)? -/
def opConsumesAuth : Op → Nat → Nat → Bool
  | Op.transferWithAuthVRS f _ _ _ _ n2 _ _ _, a, n => f = a ∧ n2 = n
  | Op.transferWithAuthSig f _ _ _ _ n2 _, a, n => f = a ∧ n2 = n
  | Op.receiveWithAuthVRS f _ _ _ _ n2 _ _ _, a, n => f = a ∧ n2 = n
  | Op.receiveWithAuthSig f _ _ _ _ n2 _, a, n => f = a ∧ n2 = n
  | Op.cancelAuthOp a2 n2 _ _ _, a, n => a2 = a ∧ n2 = n
  | _, _, _ => false

end PieWrappedERC20

namespace PieWrappedERC20

/-! ## Observation helpers and concrete fixtures -/

/-- Did the call succeed? -/
def isOk : Except Err WrappedState → Bool
  | Except.ok _ => true
  | Except.error _ => false

/-- The revert reason of a call, if any. -/
def errOf : Except Err WrappedState → Option Err
  | Except.ok _ => none
  | Except.error e => some e

/-- The post-state of a successful call, with a fallback for the revert
case. -/
def okState (x : Except Err WrappedState) (fallback : WrappedState) : WrappedState :=
  match x with
  | Except.ok st => st
  | Except.error _ => fallback

/-- A concrete recovery oracle for witnesses: a signature with `v = 27`
recovers to the party named in the digest, any other `v` fails to
recover. -/
def recover0 : Digest → Nat → Nat → Nat → Option Addr
  | Digest.transferAuth f _ _ _ _ _, v, _, _ => if v = 27 then some f else none
  | Digest.receiveAuth f _ _ _ _ _, v, _, _ => if v = 27 then some f else none
  | Digest.cancelAuth a _, v, _, _ => if v = 27 then some a else none

/-- Concrete environment: caller 2, time 10. -/
def env0 : Env := { sender := 2, timestamp := 10, recover := recover0 }

/-- Concrete environment: caller 9, time 200 (past the windows used by the
witnesses). -/
def envLate : Env := { sender := 9, timestamp := 200, recover := recover0 }

/-- Concrete environment: same caller and time as `env0` but with an
oracle under which no signature ever recovers. -/
def envNoSig : Env := { sender := 2, timestamp := 10, recover := fun _ _ _ _ => none }

/-- Concrete environment: a different submitting caller (9) at the same
time and with the same oracle as `env0`. -/
def envPush : Env := { sender := 9, timestamp := 10, recover := recover0 }

/-- Concrete environment: caller 1 (the underlying-token holder of `st0`),
time 10. -/
def envDep : Env := { sender := 1, timestamp := 10, recover := recover0 }

/-- Concrete initial state: account 1 holds 100 wrapped tokens and 50
underlying tokens, the wrapper contract holds 30 underlying tokens,
account 1 has approved the wrapper for 50 underlying tokens, no
authorization is consumed, the reentrancy guard is free. -/
def st0 : WrappedState :=
  { authorizationStates := fun _ _ => false
  , wrapped :=
      { balances := fun a => if a = 1 then 100 else 0
      , allowances := fun _ _ => 0
      , totalSupply := 100 }
  , underlying :=
      { balances := fun a => if a = 1 then 50 else if a = contractAddr then 30 else 0
      , allowances := fun o sp => if o = 1 ∧ sp = contractAddr then 50 else 0
      , totalSupply := 80 }
  , locked := false }

/-- The state after the witnesses' first successful transfer (payer 1,
payee 2, value 5, window [5, 100], nonce 7, valid signature). -/
def st1used : WrappedState :=
  okState (transferWithAuthorization env0 st0 1 2 5 5 100 7 27 1 1) st0

/-! ## Basic inversion lemmas -/

theorem requireUnused_ok_iff {st : WrappedState} {a n : Nat} :
    requireUnusedAuthorization st a n = Except.ok () ↔
      st.authorizationStates a n = false := by
  unfold requireUnusedAuthorization
  cases h : st.authorizationStates a n <;> simp [h]

theorem requireValid_ok_iff {env : Env} {st : WrappedState} {a n va vb : Nat} :
    requireValidAuthorization env st a n va vb = Except.ok () ↔
      va ≤ env.timestamp ∧ env.timestamp ≤ vb ∧ st.authorizationStates a n = false := by
  constructor
  · intro h
    unfold requireValidAuthorization at h
    split_ifs at h with h1 h2
    exact ⟨by omega, by omega, requireUnused_ok_iff.1 h⟩
  · rintro ⟨h1, h2, h3⟩
    unfold requireValidAuthorization
    rw [if_neg (by omega), if_neg (by omega)]
    exact requireUnused_ok_iff.2 h3

theorem erc20Transfer_ok_iff {st : ERC20State} {f t v : Nat} {st2 : ERC20State} :
    erc20Transfer st f t v = Except.ok st2 ↔
      f ≠ 0 ∧ t ≠ 0 ∧ v ≤ st.balances f ∧
      st2 = updateTo { st with balances := setBal st.balances f (st.balances f - v) } t v := by
  unfold erc20Transfer erc20Update
  split_ifs with h1 h2 h3
  · simp [h1]
  · simp [h2]
  · simp only [false_iff]
    rintro ⟨-, -, hle, -⟩
    omega
  · constructor
    · intro h
      injection h with h
      exact ⟨h1, h2, by omega, h.symm⟩
    · rintro ⟨-, -, -, h⟩
      rw [h]

end PieWrappedERC20

namespace PieWrappedERC20

/-! ## Contract-level characterization lemmas -/

theorem setAuthState_self (f : Addr → Nat → Bool) (a n : Nat) (v : Bool) :
    setAuthState f a n v a n = v := by
  simp [setAuthState]

theorem setAuthState_other (f : Addr → Nat → Bool) (a n : Nat) (v : Bool)
    {a2 n2 : Nat} (h : ¬(a2 = a ∧ n2 = n)) :
    setAuthState f a n v a2 n2 = f a2 n2 := by
  simp [setAuthState, h]

theorem executeAuthorization_wrapped (st : WrappedState) (a t vl n : Nat) :
    (executeAuthorization st a t vl n).wrapped = st.wrapped := rfl

theorem transferWithAuthorization_ok_iff
    {env : Env} {st : WrappedState} {from_ to_ value va vb n v r s : Nat} {st' : WrappedState} :
    transferWithAuthorization env st from_ to_ value va vb n v r s = Except.ok st' ↔
      va ≤ env.timestamp ∧ env.timestamp ≤ vb ∧ st.authorizationStates from_ n = false ∧
      env.recover (Digest.transferAuth from_ to_ value va vb n) v r s = some from_ ∧
      ∃ w, erc20Transfer st.wrapped from_ to_ value = Except.ok w ∧
        st' = { st with
          authorizationStates := setAuthState st.authorizationStates from_ n true,
          wrapped := w } := by
  unfold transferWithAuthorization
  cases hval : requireValidAuthorization env st from_ n va vb with
  | error e =>
      have hnc : ¬(va ≤ env.timestamp ∧ env.timestamp ≤ vb ∧
          st.authorizationStates from_ n = false) := by
        intro hc
        rw [requireValid_ok_iff.2 hc] at hval
        exact Except.noConfusion hval
      try dsimp only
      constructor
      · intro h
        exact Except.noConfusion h
      · rintro ⟨h1, h2, h3, -⟩
        exact absurd ⟨h1, h2, h3⟩ hnc
  | ok u =>
      obtain ⟨h1, h2, h3⟩ := requireValid_ok_iff.1 hval
      try dsimp only
      unfold ecdsaRecover
      cases hrec : env.recover (Digest.transferAuth from_ to_ value va vb n) v r s with
      | none =>
          try dsimp only
          constructor
          · intro h
            exact Except.noConfusion h
          · rintro ⟨-, -, -, h4, -⟩
            exact Option.noConfusion h4
      | some signer =>
          try dsimp only
          by_cases hs : signer = from_
          · subst hs
            rw [if_neg (by simp)]
            unfold executeAuthorization
            try dsimp only
            cases htr : erc20Transfer st.wrapped signer to_ value with
            | error e2 =>
                constructor
                · intro h
                  exact Except.noConfusion h
                · rintro ⟨-, -, -, -, w, hw, -⟩
                  exact Except.noConfusion hw
            | ok w =>
                constructor
                · intro h
                  injection h with h
                  exact ⟨h1, h2, h3, rfl, w, rfl, h.symm⟩
                · rintro ⟨-, -, -, -, w2, hw2, hst⟩
                  injection hw2 with hw2
                  subst hw2
                  rw [hst]
          · rw [if_pos hs]
            constructor
            · intro h
              exact Except.noConfusion h
            · rintro ⟨-, -, -, h4, -⟩
              injection h4 with h4
              exact (hs h4).elim

end PieWrappedERC20

namespace PieWrappedERC20

theorem receiveWithAuthorization_ok_iff
    {env : Env} {st : WrappedState} {from_ to_ value va vb n v r s : Nat} {st' : WrappedState} :
    receiveWithAuthorization env st from_ to_ value va vb n v r s = Except.ok st' ↔
      to_ = env.sender ∧
      va ≤ env.timestamp ∧ env.timestamp ≤ vb ∧ st.authorizationStates from_ n = false ∧
      env.recover (Digest.receiveAuth from_ to_ value va vb n) v r s = some from_ ∧
      ∃ w, erc20Transfer st.wrapped from_ to_ value = Except.ok w ∧
        st' = { st with
          authorizationStates := setAuthState st.authorizationStates from_ n true,
          wrapped := w } := by
  unfold receiveWithAuthorization
  by_cases hto : to_ = env.sender
  case neg =>
    rw [if_pos hto]
    constructor
    · intro h
      exact Except.noConfusion h
    · rintro ⟨h0, -⟩
      exact (hto h0).elim
  case pos =>
    rw [if_neg (by simpa using hto)]
    rw [and_iff_right hto]
    cases hval : requireValidAuthorization env st from_ n va vb with
    | error e =>
        have hnc : ¬(va ≤ env.timestamp ∧ env.timestamp ≤ vb ∧
            st.authorizationStates from_ n = false) := by
          intro hc
          rw [requireValid_ok_iff.2 hc] at hval
          exact Except.noConfusion hval
        try dsimp only
        constructor
        · intro h
          exact Except.noConfusion h
        · rintro ⟨h1, h2, h3, -⟩
          exact absurd ⟨h1, h2, h3⟩ hnc
    | ok u =>
        obtain ⟨h1, h2, h3⟩ := requireValid_ok_iff.1 hval
        try dsimp only
        unfold ecdsaRecover
        cases hrec : env.recover (Digest.receiveAuth from_ to_ value va vb n) v r s with
        | none =>
            try dsimp only
            constructor
            · intro h
              exact Except.noConfusion h
            · rintro ⟨-, -, -, h4, -⟩
              exact Option.noConfusion h4
        | some signer =>
            try dsimp only
            by_cases hs : signer = from_
            · subst hs
              rw [if_neg (by simp)]
              unfold executeAuthorization
              try dsimp only
              cases htr : erc20Transfer st.wrapped signer to_ value with
              | error e2 =>
                  constructor
                  · intro h
                    exact Except.noConfusion h
                  · rintro ⟨-, -, -, -, w, hw, -⟩
                    exact Except.noConfusion hw
              | ok w =>
                  constructor
                  · intro h
                    injection h with h
                    exact ⟨h1, h2, h3, rfl, w, rfl, h.symm⟩
                  · rintro ⟨-, -, -, -, w2, hw2, hst⟩
                    injection hw2 with hw2
                    subst hw2
                    rw [hst]
            · rw [if_pos hs]
              constructor
              · intro h
                exact Except.noConfusion h
              · rintro ⟨-, -, -, h4, -⟩
                injection h4 with h4
                exact (hs h4).elim

theorem cancelAuthorization_ok_iff
    {env : Env} {st : WrappedState} {a n v r s : Nat} {st' : WrappedState} :
    cancelAuthorization env st a n v r s = Except.ok st' ↔
      st.authorizationStates a n = false ∧
      env.recover (Digest.cancelAuth a n) v r s = some a ∧
      st' = { st with
        authorizationStates := setAuthState st.authorizationStates a n true } := by
  unfold cancelAuthorization
  cases hun : requireUnusedAuthorization st a n with
  | error e =>
      have hnc : st.authorizationStates a n ≠ false := by
        intro hc
        rw [requireUnused_ok_iff.2 hc] at hun
        exact Except.noConfusion hun
      try dsimp only
      constructor
      · intro h
        exact Except.noConfusion h
      · rintro ⟨h1, -⟩
        exact (hnc h1).elim
  | ok u =>
      have h1 := requireUnused_ok_iff.1 hun
      try dsimp only
      unfold ecdsaRecover
      cases hrec : env.recover (Digest.cancelAuth a n) v r s with
      | none =>
          try dsimp only
          constructor
          · intro h
            exact Except.noConfusion h
          · rintro ⟨-, h4, -⟩
            exact Option.noConfusion h4
      | some signer =>
          try dsimp only
          by_cases hs : signer = a
          · subst hs
            rw [if_neg (by simp)]
            constructor
            · intro h
              injection h with h
              exact ⟨h1, rfl, h.symm⟩
            · rintro ⟨-, -, hst⟩
              rw [hst]
          · rw [if_pos hs]
            constructor
            · intro h
              exact Except.noConfusion h
            · rintro ⟨-, h4, -⟩
              injection h4 with h4
              exact (hs h4).elim

/-- With a successfully parsed 65-byte signature, the packed-bytes overload
computes exactly the structured v/r/s overload. -/
theorem transferWithAuthorizationSig_eq_of_split
    (env : Env) (st : WrappedState) (from_ to_ value va vb n v r s : Nat)
    (sig : List Nat) (hsplit : splitSignature sig = some (v, r, s)) :
    transferWithAuthorizationSig env st from_ to_ value va vb n sig
      = transferWithAuthorization env st from_ to_ value va vb n v r s := by
  unfold transferWithAuthorizationSig transferWithAuthorization ecdsaRecoverBytes
  rw [hsplit]

/-- With an unparseable signature, the packed-bytes overload reverts: it
never reaches the state-changing suffix. -/
theorem transferWithAuthorizationSig_err_of_split_none
    (env : Env) (st : WrappedState) (from_ to_ value va vb n : Nat)
    (sig : List Nat) (hsplit : splitSignature sig = none) {st' : WrappedState} :
    transferWithAuthorizationSig env st from_ to_ value va vb n sig ≠ Except.ok st' := by
  unfold transferWithAuthorizationSig ecdsaRecoverBytes
  cases hval : requireValidAuthorization env st from_ n va vb with
  | error e => exact fun h => Except.noConfusion h
  | ok u =>
      rw [hsplit]
      exact fun h => Except.noConfusion h

theorem receiveWithAuthorizationSig_eq_of_split
    (env : Env) (st : WrappedState) (from_ to_ value va vb n v r s : Nat)
    (sig : List Nat) (hsplit : splitSignature sig = some (v, r, s)) :
    receiveWithAuthorizationSig env st from_ to_ value va vb n sig
      = receiveWithAuthorization env st from_ to_ value va vb n v r s := by
  unfold receiveWithAuthorizationSig receiveWithAuthorization ecdsaRecoverBytes
  rw [hsplit]

theorem receiveWithAuthorizationSig_err_of_split_none
    (env : Env) (st : WrappedState) (from_ to_ value va vb n : Nat)
    (sig : List Nat) (hsplit : splitSignature sig = none) {st' : WrappedState} :
    receiveWithAuthorizationSig env st from_ to_ value va vb n sig ≠ Except.ok st' := by
  unfold receiveWithAuthorizationSig ecdsaRecoverBytes
  by_cases hto : to_ = env.sender
  · rw [if_neg (by simpa using hto)]
    cases hval : requireValidAuthorization env st from_ n va vb with
    | error e => exact fun h => Except.noConfusion h
    | ok u =>
        rw [hsplit]
        exact fun h => Except.noConfusion h
  · rw [if_pos hto]
    exact fun h => Except.noConfusion h

end PieWrappedERC20

namespace PieWrappedERC20

/-! ## Error-side helper lemmas -/

theorem requireValid_err_notYetValid {env : Env} {st : WrappedState} {a n va vb : Nat}
    (h : env.timestamp < va) :
    requireValidAuthorization env st a n va vb = Except.error Err.AuthorizationNotYetValid := by
  unfold requireValidAuthorization
  rw [if_pos h]

theorem requireValid_err_expired {env : Env} {st : WrappedState} {a n va vb : Nat}
    (h1 : va ≤ env.timestamp) (h2 : vb < env.timestamp) :
    requireValidAuthorization env st a n va vb = Except.error Err.AuthorizationExpired := by
  unfold requireValidAuthorization
  rw [if_neg (by omega), if_pos h2]

theorem requireValid_err_used {env : Env} {st : WrappedState} {a n va vb : Nat}
    (h1 : va ≤ env.timestamp) (h2 : env.timestamp ≤ vb)
    (h3 : st.authorizationStates a n = true) :
    requireValidAuthorization env st a n va vb = Except.error Err.AuthorizationAlreadyUsed := by
  unfold requireValidAuthorization requireUnusedAuthorization
  rw [if_neg (by omega), if_neg (by omega), if_pos h3]

theorem requireValid_timestamp_only {env env2 : Env} {st : WrappedState} {a n va vb : Nat}
    (h : env2.timestamp = env.timestamp) :
    requireValidAuthorization env2 st a n va vb = requireValidAuthorization env st a n va vb := by
  unfold requireValidAuthorization
  rw [h]

theorem transferWithAuthorization_err_of_requireValid
    (env : Env) (st : WrappedState) (from_ to_ value va vb n v r s : Nat) {e : Err}
    (h : requireValidAuthorization env st from_ n va vb = Except.error e) :
    transferWithAuthorization env st from_ to_ value va vb n v r s = Except.error e := by
  unfold transferWithAuthorization
  rw [h]

theorem transferWithAuthorizationSig_err_of_requireValid
    (env : Env) (st : WrappedState) (from_ to_ value va vb n : Nat) (sig : List Nat) {e : Err}
    (h : requireValidAuthorization env st from_ n va vb = Except.error e) :
    transferWithAuthorizationSig env st from_ to_ value va vb n sig = Except.error e := by
  unfold transferWithAuthorizationSig
  rw [h]

theorem receiveWithAuthorization_err_of_requireValid
    (env : Env) (st : WrappedState) (from_ to_ value va vb n v r s : Nat) {e : Err}
    (hto : to_ = env.sender)
    (h : requireValidAuthorization env st from_ n va vb = Except.error e) :
    receiveWithAuthorization env st from_ to_ value va vb n v r s = Except.error e := by
  unfold receiveWithAuthorization
  rw [if_neg (by simpa using hto), h]

theorem receiveWithAuthorizationSig_err_of_requireValid
    (env : Env) (st : WrappedState) (from_ to_ value va vb n : Nat) (sig : List Nat) {e : Err}
    (hto : to_ = env.sender)
    (h : requireValidAuthorization env st from_ n va vb = Except.error e) :
    receiveWithAuthorizationSig env st from_ to_ value va vb n sig = Except.error e := by
  unfold receiveWithAuthorizationSig
  rw [if_neg (by simpa using hto), h]

theorem cancelAuthorization_err_used
    (env : Env) (st : WrappedState) (a n v r s : Nat)
    (h : st.authorizationStates a n = true) :
    cancelAuthorization env st a n v r s = Except.error Err.AuthorizationAlreadyUsed := by
  unfold cancelAuthorization requireUnusedAuthorization
  rw [if_pos h]

/-! ## Inversion of deposit / redeem -/

theorem nonReentrant_ok_inv {st : WrappedState} {body : WrappedState → Except Err WrappedState}
    {st' : WrappedState} (h : nonReentrant st body = Except.ok st') :
    st.locked = false ∧ ∃ st2, body { st with locked := true } = Except.ok st2 ∧
      st' = { st2 with locked := false } := by
  unfold nonReentrant at h
  by_cases hl : st.locked = true
  · rw [if_pos hl] at h
    exact Except.noConfusion h
  · rw [if_neg hl] at h
    cases hb : body { st with locked := true } with
    | error e =>
        rw [hb] at h
        exact Except.noConfusion h
    | ok st2 =>
        rw [hb] at h
        dsimp only at h
        injection h with h
        exact ⟨by simpa using hl, st2, rfl, h.symm⟩

theorem depositBody_ok_inv {env : Env} {st : WrappedState} {amount : Nat} {st' : WrappedState}
    (h : depositBody env st amount = Except.ok st') :
    ∃ u w, st' = { st with underlying := u, wrapped := w } := by
  unfold depositBody at h
  by_cases h1 : amount = 0
  · rw [if_pos h1] at h
    exact Except.noConfusion h
  rw [if_neg h1] at h
  cases htf : erc20TransferFrom st.underlying contractAddr env.sender contractAddr amount with
  | error e =>
      rw [htf] at h
      exact Except.noConfusion h
  | ok u =>
      rw [htf] at h
      dsimp only at h
      by_cases h2 : u.balances contractAddr < st.underlying.balances contractAddr
      · rw [if_pos h2] at h
        exact Except.noConfusion h
      rw [if_neg h2] at h
      by_cases h3 : u.balances contractAddr - st.underlying.balances contractAddr ≠ amount
      · rw [if_pos h3] at h
        exact Except.noConfusion h
      rw [if_neg h3] at h
      cases hm : erc20Mint st.wrapped env.sender
          (u.balances contractAddr - st.underlying.balances contractAddr) with
      | error e =>
          rw [hm] at h
          exact Except.noConfusion h
      | ok w =>
          rw [hm] at h
          dsimp only at h
          injection h with h
          exact ⟨u, w, h.symm⟩

theorem redeemDebit_ok_inv {env : Env} {st : WrappedState} {amount : Nat} {st' : WrappedState}
    (h : redeemDebit env st amount = Except.ok st') :
    ∃ w, st' = { st with wrapped := w } := by
  unfold redeemDebit at h
  by_cases h1 : amount = 0
  · rw [if_pos h1] at h
    exact Except.noConfusion h
  rw [if_neg h1] at h
  by_cases h2 : st.wrapped.balances env.sender < amount
  · rw [if_pos h2] at h
    exact Except.noConfusion h
  rw [if_neg h2] at h
  cases hb : erc20Burn st.wrapped env.sender amount with
  | error e =>
      rw [hb] at h
      exact Except.noConfusion h
  | ok w =>
      rw [hb] at h
      dsimp only at h
      injection h with h
      exact ⟨w, h.symm⟩

theorem redeemBody_ok_inv {env : Env} {st : WrappedState} {amount : Nat} {st' : WrappedState}
    (h : redeemBody env st amount = Except.ok st') :
    ∃ w u, st' = { st with wrapped := w, underlying := u } := by
  unfold redeemBody at h
  cases hd : redeemDebit env st amount with
  | error e =>
      rw [hd] at h
      exact Except.noConfusion h
  | ok st1 =>
      rw [hd] at h
      dsimp only at h
      obtain ⟨w, hw⟩ := redeemDebit_ok_inv hd
      cases ht : erc20Transfer st1.underlying contractAddr env.sender amount with
      | error e =>
          rw [ht] at h
          exact Except.noConfusion h
      | ok u =>
          rw [ht] at h
          dsimp only at h
          injection h with h
          subst hw
          exact ⟨w, u, h.symm⟩

theorem deposit_ok_inv {env : Env} {st : WrappedState} {amount : Nat} {st' : WrappedState}
    (h : deposit env st amount = Except.ok st') :
    st.locked = false ∧ ∃ u w, st' = { st with underlying := u, wrapped := w } := by
  obtain ⟨hl, st2, hb, hst⟩ := nonReentrant_ok_inv h
  obtain ⟨u, w, hw⟩ := depositBody_ok_inv hb
  subst hw
  refine ⟨hl, u, w, ?_⟩
  rw [hst, hl]

theorem redeem_ok_inv {env : Env} {st : WrappedState} {amount : Nat} {st' : WrappedState}
    (h : redeem env st amount = Except.ok st') :
    st.locked = false ∧ ∃ w u, st' = { st with wrapped := w, underlying := u } := by
  obtain ⟨hl, st2, hb, hst⟩ := nonReentrant_ok_inv h
  obtain ⟨w, u, hw⟩ := redeemBody_ok_inv hb
  subst hw
  refine ⟨hl, w, u, ?_⟩
  rw [hst, hl]

end PieWrappedERC20

namespace PieWrappedERC20

/-! ## Authorization-registry monotonicity over arbitrary operations -/

theorem setAuthState_true_mono {f : Addr → Nat → Bool} {a2 n2 a n : Nat}
    (h : f a n = true) : setAuthState f a2 n2 true a n = true := by
  unfold setAuthState
  split
  · rfl
  · exact h

/-- A successful entry point that consumes authorization (a, n) leaves the
registry at `true` for (a, n). -/
theorem step_ok_auth_true {env : Env} {op : Op} {st st' : WrappedState} {a n : Nat}
    (hcons : opConsumesAuth op a n = true) (hok : step env op st = Except.ok st') :
    st'.authorizationStates a n = true := by
  cases op with
  | depositOp amount => exact absurd hcons (by simp [opConsumesAuth])
  | redeemOp amount => exact absurd hcons (by simp [opConsumesAuth])
  | transferWithAuthVRS f t vl va vb n2 v r s =>
      obtain ⟨hf, hn⟩ := by simpa [opConsumesAuth] using hcons
      obtain ⟨-, -, -, -, w, -, hst⟩ := transferWithAuthorization_ok_iff.1 hok
      subst hf hn hst
      exact setAuthState_self st.authorizationStates f n2 true ▸ by
        simp [setAuthState]
  | transferWithAuthSig f t vl va vb n2 sig =>
      obtain ⟨hf, hn⟩ := by simpa [opConsumesAuth] using hcons
      cases hsplit : splitSignature sig with
      | none =>
          exact absurd hok
            (transferWithAuthorizationSig_err_of_split_none env st f t vl va vb n2 sig hsplit)
      | some vrs =>
          obtain ⟨v, r, s⟩ := vrs
          have hok2 : transferWithAuthorizationSig env st f t vl va vb n2 sig
              = Except.ok st' := hok
          rw [transferWithAuthorizationSig_eq_of_split env st f t vl va vb n2 v r s sig hsplit]
            at hok2
          replace hok := hok2
          obtain ⟨-, -, -, -, w, -, hst⟩ := transferWithAuthorization_ok_iff.1 hok
          subst hf hn hst
          simp [setAuthState]
  | receiveWithAuthVRS f t vl va vb n2 v r s =>
      obtain ⟨hf, hn⟩ := by simpa [opConsumesAuth] using hcons
      obtain ⟨-, -, -, -, -, w, -, hst⟩ := receiveWithAuthorization_ok_iff.1 hok
      subst hf hn hst
      simp [setAuthState]
  | receiveWithAuthSig f t vl va vb n2 sig =>
      obtain ⟨hf, hn⟩ := by simpa [opConsumesAuth] using hcons
      cases hsplit : splitSignature sig with
      | none =>
          exact absurd hok
            (receiveWithAuthorizationSig_err_of_split_none env st f t vl va vb n2 sig hsplit)
      | some vrs =>
          obtain ⟨v, r, s⟩ := vrs
          have hok2 : receiveWithAuthorizationSig env st f t vl va vb n2 sig
              = Except.ok st' := hok
          rw [receiveWithAuthorizationSig_eq_of_split env st f t vl va vb n2 v r s sig hsplit]
            at hok2
          replace hok := hok2
          obtain ⟨-, -, -, -, -, w, -, hst⟩ := receiveWithAuthorization_ok_iff.1 hok
          subst hf hn hst
          simp [setAuthState]
  | cancelAuthOp a2 n2 v r s =>
      obtain ⟨hf, hn⟩ := by simpa [opConsumesAuth] using hcons
      obtain ⟨-, -, hst⟩ := cancelAuthorization_ok_iff.1 hok
      subst hf hn hst
      simp [setAuthState]

/-- No successful entry point ever resets a consumed (a, n) registry entry. -/
theorem step_ok_auth_mono {env : Env} {op : Op} {st st' : WrappedState} {a n : Nat}
    (hok : step env op st = Except.ok st') (hused : st.authorizationStates a n = true) :
    st'.authorizationStates a n = true := by
  cases op with
  | depositOp amount =>
      obtain ⟨-, u, w, hst⟩ := deposit_ok_inv hok
      rw [hst]
      exact hused
  | redeemOp amount =>
      obtain ⟨-, w, u, hst⟩ := redeem_ok_inv hok
      rw [hst]
      exact hused
  | transferWithAuthVRS f t vl va vb n2 v r s =>
      obtain ⟨-, -, -, -, w, -, hst⟩ := transferWithAuthorization_ok_iff.1 hok
      rw [hst]
      exact setAuthState_true_mono hused
  | transferWithAuthSig f t vl va vb n2 sig =>
      cases hsplit : splitSignature sig with
      | none =>
          exact absurd hok
            (transferWithAuthorizationSig_err_of_split_none env st f t vl va vb n2 sig hsplit)
      | some vrs =>
          obtain ⟨v, r, s⟩ := vrs
          have hok2 : transferWithAuthorizationSig env st f t vl va vb n2 sig
              = Except.ok st' := hok
          rw [transferWithAuthorizationSig_eq_of_split env st f t vl va vb n2 v r s sig hsplit]
            at hok2
          replace hok := hok2
          obtain ⟨-, -, -, -, w, -, hst⟩ := transferWithAuthorization_ok_iff.1 hok
          rw [hst]
          exact setAuthState_true_mono hused
  | receiveWithAuthVRS f t vl va vb n2 v r s =>
      obtain ⟨-, -, -, -, -, w, -, hst⟩ := receiveWithAuthorization_ok_iff.1 hok
      rw [hst]
      exact setAuthState_true_mono hused
  | receiveWithAuthSig f t vl va vb n2 sig =>
      cases hsplit : splitSignature sig with
      | none =>
          exact absurd hok
            (receiveWithAuthorizationSig_err_of_split_none env st f t vl va vb n2 sig hsplit)
      | some vrs =>
          obtain ⟨v, r, s⟩ := vrs
          have hok2 : receiveWithAuthorizationSig env st f t vl va vb n2 sig
              = Except.ok st' := hok
          rw [receiveWithAuthorizationSig_eq_of_split env st f t vl va vb n2 v r s sig hsplit]
            at hok2
          replace hok := hok2
          obtain ⟨-, -, -, -, -, w, -, hst⟩ := receiveWithAuthorization_ok_iff.1 hok
          rw [hst]
          exact setAuthState_true_mono hused
  | cancelAuthOp a2 n2 v r s =>
      obtain ⟨-, -, hst⟩ := cancelAuthorization_ok_iff.1 hok
      rw [hst]
      exact setAuthState_true_mono hused

theorem execOp_auth_mono (env : Env) (op : Op) (st : WrappedState) {a n : Nat}
    (hused : st.authorizationStates a n = true) :
    (execOp env op st).authorizationStates a n = true := by
  unfold execOp
  cases hstep : step env op st with
  | ok st2 => exact step_ok_auth_mono hstep hused
  | error e => exact hused

theorem runOps_auth_mono (ops : List (Env × Op)) (st : WrappedState) {a n : Nat}
    (hused : st.authorizationStates a n = true) :
    (runOps ops st).authorizationStates a n = true := by
  induction ops generalizing st with
  | nil => exact hused
  | cons p rest ih =>
      obtain ⟨env, op⟩ := p
      exact ih (execOp env op st) (execOp_auth_mono env op st hused)

end PieWrappedERC20

namespace PieWrappedERC20

/-! ## Claim C2 -/

/-- C2: the time-window check accepts exactly the closed interval
[validAfter, validBefore]: before it the operation fails with
`AuthorizationNotYetValid`, after it with `AuthorizationExpired`, and at
both boundary instants the time checks pass (the check reduces to the
nonce check); `transferWithAuthorization` propagates the two time
errors verbatim. -/
theorem transfer_time_window_closed_interval
    (env : Env) (st : WrappedState) (from_ to_ value va vb n v r s : Nat) :
    (env.timestamp < va →
      requireValidAuthorization env st from_ n va vb
        = Except.error Err.AuthorizationNotYetValid)
    ∧ (va ≤ env.timestamp → vb < env.timestamp →
      requireValidAuthorization env st from_ n va vb
        = Except.error Err.AuthorizationExpired)
    ∧ (va ≤ env.timestamp → env.timestamp ≤ vb →
      requireValidAuthorization env st from_ n va vb
        = requireUnusedAuthorization st from_ n)
    ∧ (env.timestamp = va → va ≤ vb →
      requireValidAuthorization env st from_ n va vb
        = requireUnusedAuthorization st from_ n)
    ∧ (env.timestamp = vb → va ≤ vb →
      requireValidAuthorization env st from_ n va vb
        = requireUnusedAuthorization st from_ n)
    ∧ (env.timestamp < va →
      transferWithAuthorization env st from_ to_ value va vb n v r s
        = Except.error Err.AuthorizationNotYetValid)
    ∧ (va ≤ env.timestamp → vb < env.timestamp →
      transferWithAuthorization env st from_ to_ value va vb n v r s
        = Except.error Err.AuthorizationExpired) := by
  refine ⟨fun h => requireValid_err_notYetValid h,
          fun h1 h2 => requireValid_err_expired h1 h2,
          fun h1 h2 => ?_, fun h1 h2 => ?_, fun h1 h2 => ?_,
          fun h => transferWithAuthorization_err_of_requireValid env st from_ to_ value va vb n
            v r s (requireValid_err_notYetValid h),
          fun h1 h2 => transferWithAuthorization_err_of_requireValid env st from_ to_ value va vb
            n v r s (requireValid_err_expired h1 h2)⟩
  · unfold requireValidAuthorization
    rw [if_neg (by omega), if_neg (by omega)]
  · unfold requireValidAuthorization
    rw [if_neg (by omega), if_neg (by omega)]
  · unfold requireValidAuthorization
    rw [if_neg (by omega), if_neg (by omega)]

/-- Witness for C2: at the lower boundary (time 10 = validAfter) the check
passes through to the nonce check; at time 200 past validBefore = 100 the
transfer reverts with `AuthorizationExpired`. -/
theorem transfer_time_window_closed_interval_witness :
    requireValidAuthorization env0 st0 1 2 10 20 = requireUnusedAuthorization st0 1 2
    ∧ transferWithAuthorization envLate st0 1 2 5 5 100 7 27 1 1
        = Except.error Err.AuthorizationExpired :=
  ⟨(transfer_time_window_closed_interval env0 st0 1 2 5 10 20 2 27 1 1).2.2.2.1
      rfl (by decide),
   (transfer_time_window_closed_interval envLate st0 1 2 5 5 100 7 27 1 1).2.2.2.2.2.2
      (by decide) (by decide)⟩

/-! ## Claim C6 -/

/-- C6: the verification rules are applied in order with short-circuiting:
not-yet-valid, then expired, then already-used, then invalid-signature;
in particular an authorization that is both expired and already used
reports `AuthorizationExpired`, and when a time or nonce rule has already
failed the outcome does not depend on the recovery oracle (the signature
is never checked). -/
theorem verification_rules_short_circuit_order
    (env : Env) (st : WrappedState) (from_ to_ value va vb n v r s : Nat) :
    (env.timestamp < va →
      transferWithAuthorization env st from_ to_ value va vb n v r s
        = Except.error Err.AuthorizationNotYetValid)
    ∧ (va ≤ env.timestamp → vb < env.timestamp →
      transferWithAuthorization env st from_ to_ value va vb n v r s
        = Except.error Err.AuthorizationExpired)
    ∧ (va ≤ env.timestamp → env.timestamp ≤ vb →
        st.authorizationStates from_ n = true →
      transferWithAuthorization env st from_ to_ value va vb n v r s
        = Except.error Err.AuthorizationAlreadyUsed)
    ∧ (va ≤ env.timestamp → env.timestamp ≤ vb →
        st.authorizationStates from_ n = false →
        ∀ signer, env.recover (Digest.transferAuth from_ to_ value va vb n) v r s = some signer →
        signer ≠ from_ →
      transferWithAuthorization env st from_ to_ value va vb n v r s
        = Except.error Err.InvalidAuthorization)
    ∧ (∀ env2 : Env, env2.timestamp = env.timestamp →
        (env.timestamp < va ∨ vb < env.timestamp ∨ st.authorizationStates from_ n = true) →
      transferWithAuthorization env2 st from_ to_ value va vb n v r s
        = transferWithAuthorization env st from_ to_ value va vb n v r s) := by
  refine ⟨fun h => transferWithAuthorization_err_of_requireValid env st from_ to_ value va vb n
            v r s (requireValid_err_notYetValid h),
          fun h1 h2 => transferWithAuthorization_err_of_requireValid env st from_ to_ value va vb
            n v r s (requireValid_err_expired h1 h2),
          fun h1 h2 h3 => transferWithAuthorization_err_of_requireValid env st from_ to_ value va
            vb n v r s (requireValid_err_used h1 h2 h3),
          fun h1 h2 h3 signer hsig hne => ?_,
          fun env2 hts hfail => ?_⟩
  · unfold transferWithAuthorization
    rw [requireValid_ok_iff.2 ⟨h1, h2, h3⟩]
    dsimp only
    unfold ecdsaRecover
    rw [hsig]
    dsimp only
    rw [if_pos hne]
  · by_cases hnv : env.timestamp < va
    · rw [transferWithAuthorization_err_of_requireValid env2 st from_ to_ value va vb n v r s
          (requireValid_err_notYetValid (by omega)),
        transferWithAuthorization_err_of_requireValid env st from_ to_ value va vb n v r s
          (requireValid_err_notYetValid hnv)]
    · by_cases hex : vb < env.timestamp
      · rw [transferWithAuthorization_err_of_requireValid env2 st from_ to_ value va vb n v r s
            (requireValid_err_expired (by omega) (by omega)),
          transferWithAuthorization_err_of_requireValid env st from_ to_ value va vb n v r s
            (requireValid_err_expired (by omega) hex)]
      · have hu : st.authorizationStates from_ n = true := by
          rcases hfail with h | h | h
          · omega
          · omega
          · exact h
        rw [transferWithAuthorization_err_of_requireValid env2 st from_ to_ value va vb n v r s
            (requireValid_err_used (by omega) (by omega) hu),
          transferWithAuthorization_err_of_requireValid env st from_ to_ value va vb n v r s
            (requireValid_err_used (by omega) (by omega) hu)]

/-- Witness for C6: on a consumed nonce past its window the transfer
reports `AuthorizationExpired` (time rule first), and on a consumed nonce
inside its window the outcome is the same under an oracle that recovers
nothing as under the normal oracle (the signature is never consulted). -/
theorem verification_rules_short_circuit_order_witness :
    transferWithAuthorization envLate st1used 1 2 5 5 100 7 27 1 1
      = Except.error Err.AuthorizationExpired
    ∧ transferWithAuthorization envNoSig st1used 1 2 5 5 100 7 27 1 1
      = transferWithAuthorization env0 st1used 1 2 5 5 100 7 27 1 1 :=
  ⟨(verification_rules_short_circuit_order envLate st1used 1 2 5 5 100 7 27 1 1).2.1
      (by decide) (by decide),
   (verification_rules_short_circuit_order env0 st1used 1 2 5 5 100 7 27 1 1).2.2.2.2
      envNoSig rfl (Or.inr (Or.inr (by decide)))⟩

end PieWrappedERC20

namespace PieWrappedERC20

/-! ## Claim C8 -/

/-- C8: for every unused (authorizer, nonce) with a valid cancellation
signature, `cancelAuthorization` succeeds, marks the nonce consumed, and
transfers no value: every wrapped and underlying balance (and allowance,
total supply, and the reentrancy flag) is unchanged, and the only changed
registry entry is that one (authorizer, nonce). -/
theorem cancelAuthorization_frame
    (env : Env) (st : WrappedState) (a n v r s : Nat)
    (hunused : st.authorizationStates a n = false)
    (hsig : env.recover (Digest.cancelAuth a n) v r s = some a) :
    ∃ st', cancelAuthorization env st a n v r s = Except.ok st'
      ∧ authorizationState st' a n = true
      ∧ (∀ addr, st'.wrapped.balances addr = st.wrapped.balances addr)
      ∧ (∀ addr, st'.underlying.balances addr = st.underlying.balances addr)
      ∧ st'.wrapped.totalSupply = st.wrapped.totalSupply
      ∧ st'.underlying.totalSupply = st.underlying.totalSupply
      ∧ (∀ o sp, st'.wrapped.allowances o sp = st.wrapped.allowances o sp)
      ∧ (∀ o sp, st'.underlying.allowances o sp = st.underlying.allowances o sp)
      ∧ st'.locked = st.locked
      ∧ (∀ a2 n2, ¬(a2 = a ∧ n2 = n) →
          st'.authorizationStates a2 n2 = st.authorizationStates a2 n2) := by
  refine ⟨{ st with authorizationStates := setAuthState st.authorizationStates a n true },
    cancelAuthorization_ok_iff.2 ⟨hunused, hsig, rfl⟩,
    ?_, fun addr => rfl, fun addr => rfl, rfl, rfl, fun o sp => rfl, fun o sp => rfl, rfl,
    fun a2 n2 h => setAuthState_other st.authorizationStates a n true h⟩
  unfold authorizationState
  exact setAuthState_self st.authorizationStates a n true

/-- Witness for C8: cancelling the unused nonce 3 of authorizer 1 in the
concrete state succeeds, marks it consumed, and leaves the balances of
accounts 1 and 2 untouched. -/
theorem cancelAuthorization_frame_witness :
    errOf (cancelAuthorization env0 st0 1 3 27 1 1) = none
    ∧ authorizationState (okState (cancelAuthorization env0 st0 1 3 27 1 1) st0) 1 3 = true
    ∧ (okState (cancelAuthorization env0 st0 1 3 27 1 1) st0).wrapped.balances 1
        = st0.wrapped.balances 1
    ∧ (okState (cancelAuthorization env0 st0 1 3 27 1 1) st0).underlying.balances 1
        = st0.underlying.balances 1 := by
  obtain ⟨st', hok, hauth, hw, hu, -⟩ :=
    cancelAuthorization_frame env0 st0 1 3 27 1 1 (by decide) rfl
  rw [hok]
  exact ⟨rfl, hauth, hw 1, hu 1⟩

/-! ## Claim C10 -/

/-- C10: the on-chain registry cannot distinguish used from canceled: after
a successful `cancelAuthorization` the public `authorizationState` query
returns `true`, exactly the same observable value as after a successful
`transferWithAuthorization` consuming the same (authorizer, nonce) — the
registry stores a single boolean per pair. -/
theorem cancel_indistinguishable_from_use
    (envC envT : Env) (st stC stT : WrappedState)
    (a n to_ value va vb v r s v2 r2 s2 : Nat)
    (hC : cancelAuthorization envC st a n v r s = Except.ok stC)
    (hT : transferWithAuthorization envT st a to_ value va vb n v2 r2 s2 = Except.ok stT) :
    authorizationState stC a n = true
    ∧ authorizationState stT a n = true
    ∧ authorizationState stC a n = authorizationState stT a n := by
  obtain ⟨-, -, hstC⟩ := cancelAuthorization_ok_iff.1 hC
  obtain ⟨-, -, -, -, w, -, hstT⟩ := transferWithAuthorization_ok_iff.1 hT
  subst hstC hstT
  unfold authorizationState
  exact ⟨setAuthState_self _ a n true, setAuthState_self _ a n true, rfl⟩

/-- Witness for C10: cancelling nonce 7 of authorizer 1 and, alternatively,
consuming it by transfer both leave the public registry query at `true`. -/
theorem cancel_indistinguishable_from_use_witness :
    authorizationState (okState (cancelAuthorization env0 st0 1 7 27 1 1) st0) 1 7 = true
    ∧ authorizationState st1used 1 7 = true := by
  obtain ⟨h1, h2, -⟩ :=
    cancel_indistinguishable_from_use env0 env0 st0
      (okState (cancelAuthorization env0 st0 1 7 27 1 1) st0) st1used
      1 7 2 5 5 100 27 1 1 27 1 1 rfl rfl
  exact ⟨h1, h2⟩

end PieWrappedERC20

namespace PieWrappedERC20

/-! ## Claim C1 (corrected) -/

/-- C1 counterexample to the claim as stated: the transfer consuming
(authorizer 1, nonce 7) succeeds, yet the subsequent transfer attempt on
the same (authorizer, nonce) — submitted at time 200, past
validBefore = 100 — fails with `AuthorizationExpired`, not with the
already-used error: the time rules are checked before the nonce rule. -/
theorem replay_attempt_can_fail_with_expired_not_alreadyUsed :
    isOk (transferWithAuthorization env0 st0 1 2 5 5 100 7 27 1 1) = true
    ∧ authorizationState st1used 1 7 = true
    ∧ errOf (transferWithAuthorization envLate st1used 1 2 5 5 100 7 27 1 1)
        = some Err.AuthorizationExpired
    ∧ errOf (transferWithAuthorization envLate st1used 1 2 5 5 100 7 27 1 1)
        ≠ some Err.AuthorizationAlreadyUsed := by
  exact ⟨by decide, by decide, by decide, by decide⟩

/-- C1 (amended): for every authorizer and nonce the registry transitions
at most once from unused to used-or-canceled and never back: after any
successful `transferWithAuthorization`, `receiveWithAuthorization`, or
`cancelAuthorization` consuming (a, n), every subsequent transfer or
receive attempt whose time-window checks pass fails with
`AuthorizationAlreadyUsed`, every subsequent cancel attempt fails with
`AuthorizationAlreadyUsed` unconditionally, and no sequence of operations
ever returns the registry entry to unused. -/
theorem authorization_state_single_transition
    (env : Env) (op : Op) (st st' : WrappedState) (a n : Nat)
    (hcons : opConsumesAuth op a n = true)
    (hok : step env op st = Except.ok st') :
    st'.authorizationStates a n = true
    ∧ (∀ (env2 : Env) (to_ value va vb v r s : Nat),
        va ≤ env2.timestamp → env2.timestamp ≤ vb →
        transferWithAuthorization env2 st' a to_ value va vb n v r s
          = Except.error Err.AuthorizationAlreadyUsed)
    ∧ (∀ (env2 : Env) (to_ value va vb : Nat) (sig : List Nat),
        va ≤ env2.timestamp → env2.timestamp ≤ vb →
        transferWithAuthorizationSig env2 st' a to_ value va vb n sig
          = Except.error Err.AuthorizationAlreadyUsed)
    ∧ (∀ (env2 : Env) (to_ value va vb v r s : Nat),
        to_ = env2.sender → va ≤ env2.timestamp → env2.timestamp ≤ vb →
        receiveWithAuthorization env2 st' a to_ value va vb n v r s
          = Except.error Err.AuthorizationAlreadyUsed)
    ∧ (∀ (env2 : Env) (to_ value va vb : Nat) (sig : List Nat),
        to_ = env2.sender → va ≤ env2.timestamp → env2.timestamp ≤ vb →
        receiveWithAuthorizationSig env2 st' a to_ value va vb n sig
          = Except.error Err.AuthorizationAlreadyUsed)
    ∧ (∀ (env2 : Env) (v r s : Nat),
        cancelAuthorization env2 st' a n v r s = Except.error Err.AuthorizationAlreadyUsed)
    ∧ (∀ ops : List (Env × Op), (runOps ops st').authorizationStates a n = true) := by
  have h1 := step_ok_auth_true hcons hok
  refine ⟨h1,
    fun env2 to_ value va vb v r s hva hvb =>
      transferWithAuthorization_err_of_requireValid env2 st' a to_ value va vb n v r s
        (requireValid_err_used hva hvb h1),
    fun env2 to_ value va vb sig hva hvb =>
      transferWithAuthorizationSig_err_of_requireValid env2 st' a to_ value va vb n sig
        (requireValid_err_used hva hvb h1),
    fun env2 to_ value va vb v r s hto hva hvb =>
      receiveWithAuthorization_err_of_requireValid env2 st' a to_ value va vb n v r s hto
        (requireValid_err_used hva hvb h1),
    fun env2 to_ value va vb sig hto hva hvb =>
      receiveWithAuthorizationSig_err_of_requireValid env2 st' a to_ value va vb n sig hto
        (requireValid_err_used hva hvb h1),
    fun env2 v r s => cancelAuthorization_err_used env2 st' a n v r s h1,
    fun ops => runOps_auth_mono ops st' h1⟩

/-- Witness for C1 (amended) on the concrete history: after the transfer
consuming (1, 7), the registry reads `true`, an in-window transfer retry
and a cancel both fail with `AuthorizationAlreadyUsed`, and the empty
continuation leaves the entry consumed. -/
theorem authorization_state_single_transition_witness :
    st1used.authorizationStates 1 7 = true
    ∧ transferWithAuthorization env0 st1used 1 2 5 5 100 7 27 1 1
        = Except.error Err.AuthorizationAlreadyUsed
    ∧ cancelAuthorization env0 st1used 1 7 27 1 1
        = Except.error Err.AuthorizationAlreadyUsed
    ∧ (runOps [] st1used).authorizationStates 1 7 = true := by
  have h := authorization_state_single_transition env0
    (Op.transferWithAuthVRS 1 2 5 5 100 7 27 1 1) st0 st1used 1 7 (by decide) rfl
  exact ⟨h.1, h.2.1 env0 2 5 5 100 27 1 1 (by decide) (by decide),
    h.2.2.2.2.2.1 env0 27 1 1, h.2.2.2.2.2.2 []⟩

end PieWrappedERC20

namespace PieWrappedERC20

/-! ## Claim C3 -/

theorem setBal_same (b : Addr → Nat) (a : Addr) (x : Nat) : setBal b a x a = x := by
  simp [setBal]

theorem setBal_other (b : Addr → Nat) (a : Addr) (x : Nat) {a2 : Addr} (h : a2 ≠ a) :
    setBal b a x a2 = b a2 := by
  simp [setBal, h]

/-- C3: a successful `transferWithAuthorization` performs exactly two state
changes as a unit — the (from, nonce) registry entry flips from unused to
used and `value` moves from `from` to `to` on the wrapped ledger — all
other registry entries, balances, allowances, the total supply, the whole
underlying ledger and the guard flag are unchanged; on any failure the
transaction reverts and the chain state is entirely unchanged. -/
theorem transferWithAuthorization_atomic
    (env : Env) (st : WrappedState) (from_ to_ value va vb n v r s : Nat) :
    (∀ st', transferWithAuthorization env st from_ to_ value va vb n v r s = Except.ok st' →
      st.authorizationStates from_ n = false
      ∧ authorizationState st' from_ n = true
      ∧ (∀ a2 n2, ¬(a2 = from_ ∧ n2 = n) →
          st'.authorizationStates a2 n2 = st.authorizationStates a2 n2)
      ∧ value ≤ st.wrapped.balances from_
      ∧ (from_ ≠ to_ →
          st'.wrapped.balances from_ = st.wrapped.balances from_ - value
          ∧ st'.wrapped.balances to_ = wrap256 (st.wrapped.balances to_ + value))
      ∧ (∀ addr, addr ≠ from_ → addr ≠ to_ →
          st'.wrapped.balances addr = st.wrapped.balances addr)
      ∧ st'.wrapped.totalSupply = st.wrapped.totalSupply
      ∧ (∀ o sp, st'.wrapped.allowances o sp = st.wrapped.allowances o sp)
      ∧ st'.underlying = st.underlying
      ∧ st'.locked = st.locked)
    ∧ (∀ e, transferWithAuthorization env st from_ to_ value va vb n v r s = Except.error e →
        execOp env (Op.transferWithAuthVRS from_ to_ value va vb n v r s) st = st) := by
  constructor
  · intro st' hok
    obtain ⟨hva, hvb, hun, hsig, w, htr, hst⟩ := transferWithAuthorization_ok_iff.1 hok
    obtain ⟨hf0, ht0, hle, hw⟩ := erc20Transfer_ok_iff.1 htr
    subst hst
    subst hw
    unfold updateTo
    rw [if_neg ht0]
    refine ⟨hun, setAuthState_self _ from_ n true,
      fun a2 n2 h => setAuthState_other _ from_ n true h, hle,
      fun hne => ⟨?_, ?_⟩, fun addr h1 h2 => ?_, rfl, fun o sp => rfl, rfl, rfl⟩
    · dsimp only
      rw [setBal_other _ _ _ hne, setBal_same]
    · dsimp only
      rw [setBal_same, setBal_other _ _ _ (Ne.symm hne)]
    · dsimp only
      rw [setBal_other _ _ _ h2, setBal_other _ _ _ h1]
  · intro e herr
    have h2 : step env (Op.transferWithAuthVRS from_ to_ value va vb n v r s) st
        = Except.error e := herr
    unfold execOp
    rw [h2]

/-- Witness for C3 on the concrete history: the successful transfer debits
5 from account 1, credits 5 to account 2, preserves the total supply, and
the expired retry leaves the chain state entirely unchanged. -/
theorem transferWithAuthorization_atomic_witness :
    st1used.wrapped.balances 1 = st0.wrapped.balances 1 - 5
    ∧ st1used.wrapped.balances 2 = wrap256 (st0.wrapped.balances 2 + 5)
    ∧ st1used.wrapped.totalSupply = st0.wrapped.totalSupply
    ∧ execOp envLate (Op.transferWithAuthVRS 1 2 5 5 100 7 27 1 1) st1used = st1used := by
  have h := (transferWithAuthorization_atomic env0 st0 1 2 5 5 100 7 27 1 1).1 st1used rfl
  have h2 := (transferWithAuthorization_atomic envLate st1used 1 2 5 5 100 7 27 1 1).2
    Err.AuthorizationExpired rfl
  exact ⟨(h.2.2.2.2.1 (by decide)).1, (h.2.2.2.2.1 (by decide)).2, h.2.2.2.2.2.2.1, h2⟩

/-! ## Claim C4 -/

/-- C4: both authorization styles are honored: the outcome of
`transferWithAuthorization` is independent of the submitting caller and
the call succeeds whenever the authorization is valid (facilitator-push),
while `receiveWithAuthorization` rejects every caller other than the
declared payee with `UnauthorizedReceiver` and succeeds for the declared
payee under the same validity conditions (receiver-pull). -/
theorem push_and_pull_styles_honored
    (env env2 : Env) (st : WrappedState) (from_ to_ value va vb n v r s : Nat) :
    (env2.timestamp = env.timestamp → env2.recover = env.recover →
      transferWithAuthorization env2 st from_ to_ value va vb n v r s
        = transferWithAuthorization env st from_ to_ value va vb n v r s)
    ∧ (va ≤ env.timestamp → env.timestamp ≤ vb → st.authorizationStates from_ n = false →
        env.recover (Digest.transferAuth from_ to_ value va vb n) v r s = some from_ →
        from_ ≠ 0 → to_ ≠ 0 → value ≤ st.wrapped.balances from_ →
        isOk (transferWithAuthorization env st from_ to_ value va vb n v r s) = true)
    ∧ (env.sender ≠ to_ →
        receiveWithAuthorization env st from_ to_ value va vb n v r s
          = Except.error Err.UnauthorizedReceiver)
    ∧ (to_ = env.sender →
        va ≤ env.timestamp → env.timestamp ≤ vb → st.authorizationStates from_ n = false →
        env.recover (Digest.receiveAuth from_ to_ value va vb n) v r s = some from_ →
        from_ ≠ 0 → to_ ≠ 0 → value ≤ st.wrapped.balances from_ →
        isOk (receiveWithAuthorization env st from_ to_ value va vb n v r s) = true) := by
  refine ⟨fun hts hrec => ?_, fun h1 h2 h3 h4 h5 h6 h7 => ?_, fun hne => ?_,
    fun ht h1 h2 h3 h4 h5 h6 h7 => ?_⟩
  · unfold transferWithAuthorization ecdsaRecover
    rw [requireValid_timestamp_only hts, hrec]
  · rw [transferWithAuthorization_ok_iff.2
      ⟨h1, h2, h3, h4, _, erc20Transfer_ok_iff.2 ⟨h5, h6, h7, rfl⟩, rfl⟩]
    rfl
  · unfold receiveWithAuthorization
    rw [if_pos (Ne.symm hne)]
  · rw [receiveWithAuthorization_ok_iff.2
      ⟨ht, h1, h2, h3, h4, _, erc20Transfer_ok_iff.2 ⟨h5, h6, h7, rfl⟩, rfl⟩]
    rfl

/-- Witness for C4: submitting the same transfer authorization from caller
9 gives the same result as from caller 2 and it succeeds; the pull-style
call for payee 5 submitted by caller 2 is rejected with
`UnauthorizedReceiver`, while the pull-style call for payee 2 submitted
by caller 2 succeeds. -/
theorem push_and_pull_styles_honored_witness :
    transferWithAuthorization envPush st0 1 2 5 5 100 7 27 1 1
      = transferWithAuthorization env0 st0 1 2 5 5 100 7 27 1 1
    ∧ isOk (transferWithAuthorization env0 st0 1 2 5 5 100 7 27 1 1) = true
    ∧ receiveWithAuthorization env0 st0 1 5 5 5 100 8 27 1 1
      = Except.error Err.UnauthorizedReceiver
    ∧ isOk (receiveWithAuthorization env0 st0 1 2 5 5 100 8 27 1 1) = true := by
  have h := push_and_pull_styles_honored env0 envPush st0 1 2 5 5 100 7 27 1 1
  have h5 := push_and_pull_styles_honored env0 envPush st0 1 5 5 5 100 8 27 1 1
  have h8 := push_and_pull_styles_honored env0 envPush st0 1 2 5 5 100 8 27 1 1
  exact ⟨h.1 rfl rfl,
    h.2.1 (by decide) (by decide) (by decide) rfl (by decide) (by decide) (by decide),
    h5.2.2.1 (by decide),
    h8.2.2.2 rfl (by decide) (by decide) (by decide) rfl (by decide) (by decide) (by decide)⟩

end PieWrappedERC20


namespace PieWrappedERC20

/-! ## Claim C9: packed vs structured signature encodings -/

theorem natToBytesBE_length (k x : Nat) : (natToBytesBE k x).length = k := by
  induction k generalizing x with
  | zero => rfl
  | succ k ih => simp [natToBytesBE, ih]

theorem bytesToNatBE_append_singleton (l : List Nat) (b : Nat) :
    bytesToNatBE (l ++ [b]) = bytesToNatBE l * 256 + b := by
  unfold bytesToNatBE
  rw [List.foldl_append]
  rfl

theorem bytesToNatBE_natToBytesBE (k x : Nat) (h : x < 256 ^ k) :
    bytesToNatBE (natToBytesBE k x) = x := by
  induction k generalizing x with
  | zero =>
      have hx : x = 0 := by
        have h1 := h
        simp [pow_zero] at h1
        omega
      subst hx
      rfl
  | succ k ih =>
      have hdiv : x / 256 < 256 ^ k := by
        rw [Nat.div_lt_iff_lt_mul (by norm_num : 0 < 256)]
        calc x < 256 ^ (k + 1) := h
        _ = 256 ^ k * 256 := by rw [pow_succ]
      rw [natToBytesBE, bytesToNatBE_append_singleton, ih (x / 256) hdiv]
      omega

theorem splitSignature_pack (v r s : Nat) (hr : r < TWO256) (hs : s < TWO256) :
    splitSignature (natToBytesBE 32 r ++ (natToBytesBE 32 s ++ [v])) = some (v, r, s) := by
  have h256 : TWO256 = 256 ^ 32 := by decide
  have hlr : (natToBytesBE 32 r).length = 32 := natToBytesBE_length 32 r
  have hls : (natToBytesBE 32 s).length = 32 := natToBytesBE_length 32 s
  have hlen : (natToBytesBE 32 r ++ (natToBytesBE 32 s ++ [v])).length = 65 := by
    simp [hlr, hls]
  unfold splitSignature
  rw [if_pos hlen]
  have htake : (natToBytesBE 32 r ++ (natToBytesBE 32 s ++ [v])).take 32
      = natToBytesBE 32 r := List.take_left' hlr
  have hdrop : (natToBytesBE 32 r ++ (natToBytesBE 32 s ++ [v])).drop 32
      = natToBytesBE 32 s ++ [v] := List.drop_left' hlr
  have htake2 : ((natToBytesBE 32 r ++ (natToBytesBE 32 s ++ [v])).drop 32).take 32
      = natToBytesBE 32 s := by
    rw [hdrop]
    exact List.take_left' hls
  have hget : (natToBytesBE 32 r ++ (natToBytesBE 32 s ++ [v])).getD 64 0 = v := by
    rw [List.getD_append_right _ _ _ _ (by omega : (natToBytesBE 32 r).length ≤ 64), hlr,
      List.getD_append_right _ _ _ _ (by omega : (natToBytesBE 32 s).length ≤ 64 - 32), hls]
    rfl
  rw [htake, htake2, hget,
    bytesToNatBE_natToBytesBE 32 r (by rw [← h256]; exact hr),
    bytesToNatBE_natToBytesBE 32 s (by rw [← h256]; exact hs)]

/-- C9: the two signature encodings are equivalent.  Any 65-byte signature
that parses into components (v, r, s) makes the packed-bytes overload of
`transferWithAuthorization` compute exactly the structured v/r/s overload
(same accept/reject outcome, same error, same resulting state); packing
any in-range (v, r, s) as r (32 bytes) ++ s (32 bytes) ++ v (1 byte) and
parsing it back is the identity, so the packed call on the packed
encoding equals the structured call; and both overloads reject a
recovered signer different from `from` with `InvalidAuthorization`. -/
theorem signature_encodings_equivalent
    (env : Env) (st : WrappedState) (from_ to_ value va vb n v r s : Nat) (sig : List Nat) :
    (splitSignature sig = some (v, r, s) →
      transferWithAuthorizationSig env st from_ to_ value va vb n sig
        = transferWithAuthorization env st from_ to_ value va vb n v r s)
    ∧ (r < TWO256 → s < TWO256 →
      splitSignature (natToBytesBE 32 r ++ (natToBytesBE 32 s ++ [v])) = some (v, r, s)
      ∧ transferWithAuthorizationSig env st from_ to_ value va vb n
          (natToBytesBE 32 r ++ (natToBytesBE 32 s ++ [v]))
        = transferWithAuthorization env st from_ to_ value va vb n v r s)
    ∧ (r < TWO256 → s < TWO256 →
      va ≤ env.timestamp → env.timestamp ≤ vb → st.authorizationStates from_ n = false →
      ∀ signer, env.recover (Digest.transferAuth from_ to_ value va vb n) v r s = some signer →
      signer ≠ from_ →
      transferWithAuthorizationSig env st from_ to_ value va vb n
          (natToBytesBE 32 r ++ (natToBytesBE 32 s ++ [v]))
        = Except.error Err.InvalidAuthorization
      ∧ transferWithAuthorization env st from_ to_ value va vb n v r s
        = Except.error Err.InvalidAuthorization) := by
  refine ⟨fun hsplit =>
      transferWithAuthorizationSig_eq_of_split env st from_ to_ value va vb n v r s sig hsplit,
    fun hr hs => ?_, fun hr hs h1 h2 h3 signer hsig hne => ?_⟩
  · have hp := splitSignature_pack v r s hr hs
    exact ⟨hp,
      transferWithAuthorizationSig_eq_of_split env st from_ to_ value va vb n v r s _ hp⟩
  · have hvrs := (verification_rules_short_circuit_order env st from_ to_ value va vb
      n v r s).2.2.2.1 h1 h2 h3 signer hsig hne
    rw [transferWithAuthorizationSig_eq_of_split env st from_ to_ value va vb n v r s _
        (splitSignature_pack v r s hr hs)]
    exact ⟨hvrs, hvrs⟩

/-- Witness for C9: the packed encoding of (v = 27, r = 1, s = 1) parses
back to its components, and the packed-bytes transfer call on it equals
the structured call. -/
theorem signature_encodings_equivalent_witness :
    splitSignature (natToBytesBE 32 1 ++ (natToBytesBE 32 1 ++ [27])) = some (27, 1, 1)
    ∧ transferWithAuthorizationSig env0 st0 1 2 5 5 100 7
        (natToBytesBE 32 1 ++ (natToBytesBE 32 1 ++ [27]))
      = transferWithAuthorization env0 st0 1 2 5 5 100 7 27 1 1 :=
  (signature_encodings_equivalent env0 st0 1 2 5 5 100 7 27 1 1 []).2.1
    (by decide) (by decide)

end PieWrappedERC20

namespace PieWrappedERC20

/-! ## Ledger arithmetic helpers -/

theorem wrap256_eq_of_lt {x : Nat} (h : x < TWO256) : wrap256 x = x :=
  Nat.mod_eq_of_lt h

theorem subWrap256_exact {x y : Nat} (hy : y ≤ x) (hx : x < TWO256) :
    subWrap256 x y = x - y := by
  unfold subWrap256
  have hyw : y % TWO256 = y := Nat.mod_eq_of_lt (by omega)
  rw [hyw]
  have h1 : TWO256 + x - y = TWO256 + (x - y) := by omega
  rw [h1, Nat.add_mod_left]
  exact Nat.mod_eq_of_lt (by omega)

theorem erc20Mint_ok_iff {st : ERC20State} {a x : Nat} {st2 : ERC20State} :
    erc20Mint st a x = Except.ok st2 ↔
      a ≠ 0 ∧ st.totalSupply + x ≤ UINT256_MAX ∧
      st2 = { st with
              balances := setBal st.balances a (wrap256 (st.balances a + x)),
              totalSupply := st.totalSupply + x } := by
  unfold erc20Mint erc20Update updateTo
  by_cases h1 : a = 0
  · rw [if_pos h1]
    simp [h1]
  · rw [if_neg h1, if_pos rfl]
    by_cases h2 : st.totalSupply + x > UINT256_MAX
    · rw [if_pos h2]
      constructor
      · intro h
        exact Except.noConfusion h
      · rintro ⟨-, hle, -⟩
        omega
    · rw [if_neg h2, if_neg h1]
      constructor
      · intro h
        injection h with h
        exact ⟨h1, by omega, h.symm⟩
      · rintro ⟨-, -, h⟩
        rw [h]

theorem erc20Burn_ok_iff {st : ERC20State} {a x : Nat} {st2 : ERC20State} :
    erc20Burn st a x = Except.ok st2 ↔
      a ≠ 0 ∧ x ≤ st.balances a ∧
      st2 = { st with
              balances := setBal st.balances a (st.balances a - x),
              totalSupply := subWrap256 st.totalSupply x } := by
  unfold erc20Burn erc20Update updateTo
  by_cases h1 : a = 0
  · rw [if_pos h1]
    simp [h1]
  · rw [if_neg h1, if_neg h1]
    by_cases h2 : st.balances a < x
    · rw [if_pos h2]
      constructor
      · intro h
        exact Except.noConfusion h
      · rintro ⟨-, hle, -⟩
        omega
    · rw [if_neg h2, if_pos rfl]
      constructor
      · intro h
        injection h with h
        exact ⟨h1, by omega, h.symm⟩
      · rintro ⟨-, -, h⟩
        rw [h]

/-- Pointwise success description of `transferFrom` for distinct nonzero
parties with sufficient balance and allowance. -/
theorem erc20TransferFrom_ok_balances
    {st : ERC20State} {spender f t x : Nat}
    (hf : f ≠ 0) (ht : t ≠ 0) (hft : f ≠ t)
    (hbal : x ≤ st.balances f) (hallow : x ≤ st.allowances f spender) :
    ∃ u, erc20TransferFrom st spender f t x = Except.ok u
      ∧ u.balances f = st.balances f - x
      ∧ u.balances t = wrap256 (st.balances t + x)
      ∧ (∀ a, a ≠ f → a ≠ t → u.balances a = st.balances a)
      ∧ u.totalSupply = st.totalSupply := by
  unfold erc20TransferFrom
  by_cases hmax : st.allowances f spender = UINT256_MAX
  · rw [if_pos hmax]
    refine ⟨_, erc20Transfer_ok_iff.2 ⟨hf, ht, hbal, rfl⟩, ?_, ?_, ?_, ?_⟩ <;>
      unfold updateTo <;> rw [if_neg ht] <;> dsimp only
    · rw [setBal_other _ _ _ hft, setBal_same]
    · rw [setBal_same, setBal_other _ _ _ (Ne.symm hft)]
    · intro a h1 h2
      rw [setBal_other _ _ _ h2, setBal_other _ _ _ h1]
  · rw [if_neg hmax, if_neg (by omega)]
    refine ⟨_, erc20Transfer_ok_iff.2 ⟨hf, ht, hbal, rfl⟩, ?_, ?_, ?_, ?_⟩ <;>
      unfold updateTo <;> rw [if_neg ht] <;> dsimp only
    · rw [setBal_other _ _ _ hft, setBal_same]
    · rw [setBal_same, setBal_other _ _ _ (Ne.symm hft)]
    · intro a h1 h2
      rw [setBal_other _ _ _ h2, setBal_other _ _ _ h1]

/-- Pointwise success description of `_transfer` for distinct nonzero
parties with sufficient balance. -/
theorem erc20Transfer_ok_balances
    {st : ERC20State} {f t x : Nat}
    (hf : f ≠ 0) (ht : t ≠ 0) (hft : f ≠ t) (hbal : x ≤ st.balances f) :
    ∃ u, erc20Transfer st f t x = Except.ok u
      ∧ u.balances f = st.balances f - x
      ∧ u.balances t = wrap256 (st.balances t + x)
      ∧ (∀ a, a ≠ f → a ≠ t → u.balances a = st.balances a)
      ∧ u.totalSupply = st.totalSupply
      ∧ u.allowances = st.allowances := by
  refine ⟨_, erc20Transfer_ok_iff.2 ⟨hf, ht, hbal, rfl⟩, ?_, ?_, ?_, ?_, ?_⟩ <;>
    unfold updateTo <;> rw [if_neg ht] <;> dsimp only
  · rw [setBal_other _ _ _ hft, setBal_same]
  · rw [setBal_same, setBal_other _ _ _ (Ne.symm hft)]
  · intro a h1 h2
    rw [setBal_other _ _ _ h2, setBal_other _ _ _ h1]

end PieWrappedERC20

namespace PieWrappedERC20

/-! ## Claim C7 -/

theorem redeemDebit_ok_facts {env : Env} {st : WrappedState} {amount : Nat} {st' : WrappedState}
    (h : redeemDebit env st amount = Except.ok st') :
    amount ≠ 0
    ∧ amount ≤ st.wrapped.balances env.sender
    ∧ st'.wrapped.balances env.sender = st.wrapped.balances env.sender - amount
    ∧ st'.locked = st.locked
    ∧ st'.underlying = st.underlying := by
  unfold redeemDebit at h
  by_cases h1 : amount = 0
  · rw [if_pos h1] at h
    exact Except.noConfusion h
  rw [if_neg h1] at h
  by_cases h2 : st.wrapped.balances env.sender < amount
  · rw [if_pos h2] at h
    exact Except.noConfusion h
  rw [if_neg h2] at h
  cases hb : erc20Burn st.wrapped env.sender amount with
  | error e =>
      rw [hb] at h
      exact Except.noConfusion h
  | ok w =>
      rw [hb] at h
      dsimp only at h
      injection h with h
      obtain ⟨hs0, hle, hw⟩ := erc20Burn_ok_iff.1 hb
      subst hw
      refine ⟨h1, by omega, ?_, ?_, ?_⟩ <;> rw [← h]
      dsimp only
      rw [setBal_same]

/-- C7: `redeem` orders the debit strictly before the external release and
is reentrancy-safe: whenever `redeem` succeeds, the balance check and the
burn of the caller's wrapped tokens (`redeemDebit`) have already succeeded
on the guard-held state before the external underlying-token transfer
runs; at that intermediate point the caller's wrapped balance is already
debited, the reentrancy guard is held so any reentrant `deposit`/`redeem`
reverts, and the whole `redeem` equals the debit followed by only the
external release. -/
theorem redeem_debit_before_release
    (env : Env) (st st' : WrappedState) (amount : Nat)
    (hok : redeem env st amount = Except.ok st') :
    st.locked = false
    ∧ ∃ mid, redeemDebit env { st with locked := true } amount = Except.ok mid
      ∧ amount ≤ st.wrapped.balances env.sender
      ∧ mid.wrapped.balances env.sender = st.wrapped.balances env.sender - amount
      ∧ mid.locked = true
      ∧ (∀ (env2 : Env) (y : Nat),
          deposit env2 mid y = Except.error Err.ReentrancyGuardReentrantCall)
      ∧ (∀ (env2 : Env) (y : Nat),
          redeem env2 mid y = Except.error Err.ReentrancyGuardReentrantCall)
      ∧ redeem env st amount
          = (match erc20Transfer mid.underlying contractAddr env.sender amount with
             | Except.error e => Except.error e
             | Except.ok u => Except.ok { mid with underlying := u, locked := false }) := by
  obtain ⟨hl, st2, hbody, hst⟩ := nonReentrant_ok_inv hok
  refine ⟨hl, ?_⟩
  have hbody2 : redeemBody env { st with locked := true } amount = Except.ok st2 := hbody
  unfold redeemBody at hbody2
  cases hd : redeemDebit env { st with locked := true } amount with
  | error e =>
      rw [hd] at hbody2
      exact Except.noConfusion hbody2
  | ok mid =>
      obtain ⟨hne, hle, hbal, hlock, hund⟩ := redeemDebit_ok_facts hd
      have hlock2 : mid.locked = true := hlock
      refine ⟨mid, rfl, hle, hbal, hlock2, ?_, ?_, ?_⟩
      · intro env2 y
        unfold deposit nonReentrant
        rw [if_pos hlock2]
      · intro env2 y
        unfold redeem nonReentrant
        rw [if_pos hlock2]
      · unfold redeem nonReentrant
        rw [if_neg (by simp [hl])]
        dsimp only
        unfold redeemBody
        rw [hd]
        dsimp only
        cases htr : erc20Transfer mid.underlying contractAddr env.sender amount <;> rfl

/-- Witness for C7 on the concrete history: redeeming 5 wrapped tokens as
account 2 succeeds; at the intermediate state before the external release
the wrapped balance of account 2 is already debited to 0 and a reentrant
deposit reverts with `ReentrancyGuardReentrantCall`. -/
theorem redeem_debit_before_release_witness :
    st1used.locked = false
    ∧ (okState (redeemDebit env0 { st1used with locked := true } 5) st0).wrapped.balances 2
        = st1used.wrapped.balances 2 - 5
    ∧ deposit env0 (okState (redeemDebit env0 { st1used with locked := true } 5) st0) 3
        = Except.error Err.ReentrancyGuardReentrantCall := by
  obtain ⟨hl, mid, hd, hle, hbal, hlock, hdep, hredeem, hfact⟩ :=
    redeem_debit_before_release env0 st1used (okState (redeem env0 st1used 5) st0) 5 rfl
  refine ⟨hl, ?_, ?_⟩
  · rw [hd]
    exact hbal
  · rw [hd]
    exact hdep env0 3

end PieWrappedERC20

namespace PieWrappedERC20

/-! ## Claim C5 -/

/-- Success description of `deposit`: with a nonzero caller distinct from
the contract, sufficient underlying balance and allowance, and no
overflow, `deposit(x)` debits `x` underlying from the caller, locks it in
the contract, and mints `x` wrapped to the caller 1:1. -/
theorem deposit_ok_explicit
    (env : Env) (st : WrappedState) (x : Nat)
    (hx : x ≠ 0) (hs0 : env.sender ≠ 0) (hsc : env.sender ≠ contractAddr)
    (hlock : st.locked = false)
    (hub : x ≤ st.underlying.balances env.sender)
    (hal : x ≤ st.underlying.allowances env.sender contractAddr)
    (hts : st.wrapped.totalSupply + x ≤ UINT256_MAX)
    (hcb : st.underlying.balances contractAddr + x < TWO256)
    (hwb : st.wrapped.balances env.sender + x < TWO256) :
    ∃ st1, deposit env st x = Except.ok st1
      ∧ st1.underlying.balances env.sender = st.underlying.balances env.sender - x
      ∧ st1.underlying.balances contractAddr = st.underlying.balances contractAddr + x
      ∧ st1.wrapped.balances env.sender = st.wrapped.balances env.sender + x
      ∧ st1.wrapped.totalSupply = st.wrapped.totalSupply + x
      ∧ st1.underlying.totalSupply = st.underlying.totalSupply
      ∧ st1.locked = false
      ∧ st1.authorizationStates = st.authorizationStates := by
  have hc0 : contractAddr ≠ 0 := by decide
  obtain ⟨u, hu, huf, hut, huo, huts⟩ :=
    erc20TransferFrom_ok_balances hs0 hc0 hsc hub hal
  have hut2 : u.balances contractAddr = st.underlying.balances contractAddr + x := by
    rw [hut]
    exact wrap256_eq_of_lt hcb
  have hmint : erc20Mint st.wrapped env.sender x = Except.ok
      { st.wrapped with
        balances := setBal st.wrapped.balances env.sender
          (wrap256 (st.wrapped.balances env.sender + x)),
        totalSupply := st.wrapped.totalSupply + x } :=
    erc20Mint_ok_iff.2 ⟨hs0, hts, rfl⟩
  have hdep : deposit env st x = Except.ok
      { authorizationStates := st.authorizationStates
      , wrapped :=
          { st.wrapped with
            balances := setBal st.wrapped.balances env.sender
              (wrap256 (st.wrapped.balances env.sender + x)),
            totalSupply := st.wrapped.totalSupply + x }
      , underlying := u
      , locked := false } := by
    unfold deposit nonReentrant
    rw [if_neg (by simp [hlock])]
    dsimp only
    unfold depositBody
    rw [if_neg hx]
    dsimp only
    rw [hu]
    dsimp only
    rw [hut2]
    rw [if_neg (by omega)]
    have hrecv : st.underlying.balances contractAddr + x
        - st.underlying.balances contractAddr = x := by omega
    rw [hrecv]
    rw [if_neg (by simp)]
    rw [hmint]
  refine ⟨_, hdep, huf, hut2, ?_, rfl, huts, rfl, rfl⟩
  dsimp only
  rw [setBal_same]
  exact wrap256_eq_of_lt hwb

/-- Success description of `redeem`: with a nonzero caller distinct from
the contract, sufficient wrapped balance, sufficient underlying reserves,
and no overflow on the release credit, `redeem(x)` burns `x` wrapped from
the caller and releases `x` underlying from the contract back to the
caller 1:1. -/
theorem redeem_ok_explicit
    (env : Env) (st : WrappedState) (x : Nat)
    (hx : x ≠ 0) (hs0 : env.sender ≠ 0) (hsc : env.sender ≠ contractAddr)
    (hlock : st.locked = false)
    (hwb : x ≤ st.wrapped.balances env.sender)
    (hcb : x ≤ st.underlying.balances contractAddr)
    (hsb : st.underlying.balances env.sender + x < TWO256) :
    ∃ st2, redeem env st x = Except.ok st2
      ∧ st2.wrapped.balances env.sender = st.wrapped.balances env.sender - x
      ∧ st2.underlying.balances env.sender = st.underlying.balances env.sender + x
      ∧ st2.underlying.balances contractAddr = st.underlying.balances contractAddr - x
      ∧ st2.wrapped.totalSupply = subWrap256 st.wrapped.totalSupply x
      ∧ st2.underlying.totalSupply = st.underlying.totalSupply
      ∧ st2.locked = false
      ∧ st2.authorizationStates = st.authorizationStates := by
  have hc0 : contractAddr ≠ 0 := by decide
  have hcs : contractAddr ≠ env.sender := Ne.symm hsc
  obtain ⟨u2, hu2, hu2c, hu2s, hu2o, hu2ts, hu2al⟩ :=
    erc20Transfer_ok_balances hc0 hs0 hcs hcb
  have hburn : erc20Burn st.wrapped env.sender x = Except.ok
      { st.wrapped with
        balances := setBal st.wrapped.balances env.sender
          (st.wrapped.balances env.sender - x),
        totalSupply := subWrap256 st.wrapped.totalSupply x } :=
    erc20Burn_ok_iff.2 ⟨hs0, hwb, rfl⟩
  have hred : redeem env st x = Except.ok
      { authorizationStates := st.authorizationStates
      , wrapped :=
          { st.wrapped with
            balances := setBal st.wrapped.balances env.sender
              (st.wrapped.balances env.sender - x),
            totalSupply := subWrap256 st.wrapped.totalSupply x }
      , underlying := u2
      , locked := false } := by
    unfold redeem nonReentrant
    rw [if_neg (by simp [hlock])]
    dsimp only
    unfold redeemBody redeemDebit
    rw [if_neg hx]
    dsimp only
    rw [if_neg (by omega : ¬(st.wrapped.balances env.sender < x))]
    rw [hburn]
    dsimp only
    rw [hu2]
  refine ⟨_, hred, ?_, ?_, hu2c, rfl, hu2ts, rfl, rfl⟩
  · dsimp only
    rw [setBal_same]
  · dsimp only
    rw [hu2s]
    exact wrap256_eq_of_lt hsb

/-- C5: for every caller and amount `x` held (and approved) in the
underlying token, `deposit(x)` followed by `redeem(x)` returns the caller
to the original underlying balance with no fee: the deposit debits `x`
underlying and credits `x` wrapped, the redeem burns `x` wrapped and
releases `x` underlying, and afterwards the caller's underlying and
wrapped balances, the contract's reserves, and the wrapped total supply
all equal their original values. -/
theorem deposit_redeem_round_trip
    (env : Env) (st : WrappedState) (x : Nat)
    (hx : 0 < x) (hs0 : env.sender ≠ 0) (hsc : env.sender ≠ contractAddr)
    (hlock : st.locked = false)
    (hub : x ≤ st.underlying.balances env.sender)
    (hal : x ≤ st.underlying.allowances env.sender contractAddr)
    (hts : st.wrapped.totalSupply + x ≤ UINT256_MAX)
    (hcb : st.underlying.balances contractAddr + x < TWO256)
    (hwb : st.wrapped.balances env.sender + x < TWO256)
    (hsb : st.underlying.balances env.sender < TWO256) :
    ∃ st1 st2,
      deposit env st x = Except.ok st1
      ∧ st1.underlying.balances env.sender = st.underlying.balances env.sender - x
      ∧ st1.wrapped.balances env.sender = st.wrapped.balances env.sender + x
      ∧ redeem env st1 x = Except.ok st2
      ∧ st2.underlying.balances env.sender = st.underlying.balances env.sender
      ∧ st2.wrapped.balances env.sender = st.wrapped.balances env.sender
      ∧ st2.underlying.balances contractAddr = st.underlying.balances contractAddr
      ∧ st2.wrapped.totalSupply = st.wrapped.totalSupply := by
  have hM : UINT256_MAX = TWO256 - 1 := rfl
  have h0 : 0 < TWO256 := by decide
  obtain ⟨st1, hdep, h1us, h1uc, h1ws, h1wts, h1uts, h1lock, h1auth⟩ :=
    deposit_ok_explicit env st x (by omega) hs0 hsc hlock hub hal hts hcb hwb
  obtain ⟨st2, hred, h2ws, h2us, h2uc, h2wts, h2uts, h2lock, h2auth⟩ :=
    redeem_ok_explicit env st1 x (by omega) hs0 hsc h1lock
      (by rw [h1ws]; omega) (by rw [h1uc]; omega) (by rw [h1us]; omega)
  refine ⟨st1, st2, hdep, h1us, h1ws, hred, ?_, ?_, ?_, ?_⟩
  · rw [h2us, h1us]
    omega
  · rw [h2ws, h1ws]
    omega
  · rw [h2uc, h1uc]
    omega
  · rw [h2wts, h1wts]
    rw [subWrap256_exact (by omega) (by omega)]
    omega

/-- Witness for C5: account 1 deposits 20 of its 50 underlying tokens
(wrapped balance 100 → 120, underlying 50 → 30) and redeems 20, returning
to underlying balance 50 and wrapped balance 100 with no fee. -/
theorem deposit_redeem_round_trip_witness :
    errOf (deposit envDep st0 20) = none
    ∧ (okState (deposit envDep st0 20) st0).underlying.balances 1 = 30
    ∧ (okState (deposit envDep st0 20) st0).wrapped.balances 1 = 120
    ∧ errOf (redeem envDep (okState (deposit envDep st0 20) st0) 20) = none
    ∧ (okState (redeem envDep (okState (deposit envDep st0 20) st0) 20) st0).underlying.balances 1
        = 50
    ∧ (okState (redeem envDep (okState (deposit envDep st0 20) st0) 20) st0).wrapped.balances 1
        = 100 := by
  obtain ⟨st1, st2, hdep, h1, h2, hred, h3, h4, h5, h6⟩ :=
    deposit_redeem_round_trip envDep st0 20 (by decide) (by decide) (by decide) rfl
      (by decide) (by decide) (by decide) (by decide) (by decide) (by decide)
  rw [hdep]
  simp only [okState]
  rw [hred]
  simp only [okState]
  have h1b : st1.underlying.balances 1 = st0.underlying.balances 1 - 20 := h1
  have h2b : st1.wrapped.balances 1 = st0.wrapped.balances 1 + 20 := h2
  have h3b : st2.underlying.balances 1 = st0.underlying.balances 1 := h3
  have h4b : st2.wrapped.balances 1 = st0.wrapped.balances 1 := h4
  refine ⟨rfl, ?_, ?_, rfl, ?_, ?_⟩
  · rw [h1b]
    decide
  · rw [h2b]
    decide
  · rw [h3b]
    decide
  · rw [h4b]
    decide

end PieWrappedERC20
